import Mathlib

/-!
Shallow embedding of `src/chestnut_tools/utils/etl.py` (repository
907Resident/chestnut-tools) and verification of the specification's claims
about it.

Strings are modelled as `List Char` (Python `str`).  Python `datetime`
values produced by this code always have a zero time-of-day, so they are
modelled by `PyDate`.  Machine-level details that the code relies on are
modelled faithfully from the CPython / pandas semantics they invoke:

* `datetime.strptime` compiles each format into a regular expression
  (CPython `_strptime.TimeRE`):
    %Y ↦ `\d\d\d\d`         (exactly four digits)
    %m ↦ `1[0-2]|0[1-9]|[1-9]`
    %d ↦ `3[0-1]|[1-2]\d|0[1-9]|[1-9]| [1-9]`
    %H ↦ `2[0-3]|[0-1]\d|\d`
    %M ↦ `[0-5]\d|\d`
    %S ↦ `6[0-1]|[0-5]\d|\d`
    %f ↦ `[0-9]{1,6}` (greedy)
  The regex engine tries alternatives in order with backtracking; after a
  successful match, strptime raises ValueError if input remains
  unconsumed, and the datetime constructor raises ValueError if the
  matched numbers do not form a real calendar date
  (year 1..9999, day within the month's length).
* `datetime + timedelta` raises OverflowError if the result leaves
  year range 1..9999.
-/

/-! ### Characters and digits -/

/-- Test for `'0'..'9'`, as the regex classes above use it. -/
def isDig (c : Char) : Bool := 48 ≤ c.toNat && c.toNat ≤ 57

/-- Numeric value of a digit character. -/
def digitVal (c : Char) : Nat := c.toNat - 48

/-- The digit character for `n % 10`. -/
def dig (n : Nat) : Char := Char.ofNat (48 + n % 10)

/-! ### Calendar dates (`datetime.datetime` at midnight) -/

structure PyDate where
  year : Nat
  month : Nat
  day : Nat
deriving DecidableEq, Repr

/-- Gregorian leap-year rule used by `datetime`. -/
def isLeap (y : Nat) : Bool := y % 4 == 0 && (y % 100 != 0 || y % 400 == 0)

/-- Length of month `m` of year `y`. -/
def daysInMonth (y m : Nat) : Nat :=
  if m = 2 then (if isLeap y then 29 else 28)
  else if m = 4 ∨ m = 6 ∨ m = 9 ∨ m = 11 then 30 else 31

/-- Python `datetime` comparison (all values here are at midnight): lexicographic
on (year, month, day). -/
def PyDate.le (a b : PyDate) : Bool :=
  decide (a.year < b.year ∨ (a.year = b.year ∧
    (a.month < b.month ∨ (a.month = b.month ∧ a.day ≤ b.day))))

/-- Add `n` days, one day at a time (equal to `datetime`'s ordinal-based
addition on any valid date); unbounded, the year-9999 overflow check of
`datetime + timedelta` is applied by the caller. -/
def addDaysU : PyDate → Nat → PyDate
  | d, 0 => d
  | d, n + 1 =>
      if d.day < daysInMonth d.year d.month then
        addDaysU ⟨d.year, d.month, d.day + 1⟩ n
      else if d.month = 12 then
        addDaysU ⟨d.year + 1, 1, 1⟩ n
      else
        addDaysU ⟨d.year, d.month + 1, 1⟩ n

/-- Subtract one day (`datetime - timedelta(days=1)`); never reaches year 0
on the inputs produced by this code. -/
def prevDay (d : PyDate) : PyDate :=
  if 2 ≤ d.day then ⟨d.year, d.month, d.day - 1⟩
  else if 2 ≤ d.month then ⟨d.year, d.month - 1, daysInMonth d.year (d.month - 1)⟩
  else ⟨d.year - 1, 12, 31⟩

/-! ### Python exceptions raised by the embedded code -/

inductive PyErr where
  | valueError
  | overflowError
  | typeError
  | keyError
  | fileNotFoundError
  | attributeError
deriving DecidableEq, Repr

/-! ### `strptime` field matchers

Each matcher returns the ordered list of `(value, unconsumed input)`
candidates of the corresponding regex alternation, in the order the
regex engine tries them. -/

/-- The `%m` alternatives `1[0-2]|0[1-9]|[1-9]`. -/
def mAlts : List Char → List (Nat × List Char)
  | c1 :: c2 :: r =>
      (if c1 = '1' ∧ (c2 = '0' ∨ c2 = '1' ∨ c2 = '2') then [(10 + digitVal c2, r)] else []) ++
      (if c1 = '0' ∧ isDig c2 ∧ c2 ≠ '0' then [(digitVal c2, r)] else []) ++
      (if isDig c1 ∧ c1 ≠ '0' then [(digitVal c1, c2 :: r)] else [])
  | [c1] => if isDig c1 ∧ c1 ≠ '0' then [(digitVal c1, [])] else []
  | [] => []

/-- The `%d` alternatives `3[0-1]|[1-2]\d|0[1-9]|[1-9]| [1-9]`. -/
def dAlts : List Char → List (Nat × List Char)
  | c1 :: c2 :: r =>
      (if c1 = '3' ∧ (c2 = '0' ∨ c2 = '1') then [(30 + digitVal c2, r)] else []) ++
      (if (c1 = '1' ∨ c1 = '2') ∧ isDig c2 then [(10 * digitVal c1 + digitVal c2, r)] else []) ++
      (if c1 = '0' ∧ isDig c2 ∧ c2 ≠ '0' then [(digitVal c2, r)] else []) ++
      (if isDig c1 ∧ c1 ≠ '0' then [(digitVal c1, c2 :: r)] else []) ++
      (if c1 = ' ' ∧ isDig c2 ∧ c2 ≠ '0' then [(digitVal c2, r)] else [])
  | [c1] => if isDig c1 ∧ c1 ≠ '0' then [(digitVal c1, [])] else []
  | [] => []

/-- The `%Y` field: exactly four digits. -/
def yTake : List Char → Option (Nat × List Char)
  | a :: b :: c :: d :: r =>
      if isDig a ∧ isDig b ∧ isDig c ∧ isDig d then
        some (1000 * digitVal a + 100 * digitVal b + 10 * digitVal c + digitVal d, r)
      else none
  | _ => none

/-- Model of `datetime.strptime(s, "%Y%m")`, requiring the whole input consumed and
the resulting date constructible (year ≥ 1); result has day 1.
The regex picks its first matching alternative and strptime rejects
leftover input afterwards, which on this format selects exactly the
first `%m` candidate with empty remainder (see the alternation orders). -/
def parseYM (l : List Char) : Option PyDate :=
  match yTake l with
  | none => none
  | some (y, r) =>
      match ((mAlts r).filter (fun p => p.2 = [])).head? with
      | none => none
      | some (m, _) => if 1 ≤ y then some ⟨y, m, 1⟩ else none

/-- Model of `datetime.strptime(s, "%Y%m%d")`.  The regex backtracks through the
`%m`/`%d` alternative pairs in order; the first pair consuming the whole
input is the one strptime accepts (e.g. `"202011"` parses as
2020-01-01), after which the datetime constructor validates the day. -/
def parseYMD (l : List Char) : Option PyDate :=
  match yTake l with
  | none => none
  | some (y, r) =>
      match (((mAlts r).flatMap (fun p => (dAlts p.2).map (fun q => (p.1, q.1, q.2.isEmpty)))).filter
              (fun t => t.2.2)).head? with
      | none => none
      | some (m, d, _) =>
          if 1 ≤ y ∧ d ≤ daysInMonth y m then some ⟨y, m, d⟩ else none

/-! ### Python string helpers used by `parse_date_input` -/

/-- Python whitespace stripped by `str.strip()` (ASCII part). -/
def pyIsSpace (c : Char) : Bool :=
  c = ' ' || c = '\t' || c = '\n' || c = '\r' || c.toNat = 11 || c.toNat = 12

/-- Python `str.strip()`. -/
def pyStrip (l : List Char) : List Char :=
  ((l.dropWhile pyIsSpace).reverse.dropWhile pyIsSpace).reverse

/-- Python `str.split("-")`: split at every dash, keeping empty parts. -/
def pySplit : List Char → List (List Char)
  | [] => [[]]
  | c :: r =>
      match pySplit r with
      | [] => [[]]
      | h :: t => if c = '-' then [] :: h :: t else (c :: h) :: t

/-! ### `parse_date_input` (etl.py lines 65-95) -/

/-- The inner function `parse_date_input` (etl.py lines 65-95): `"A-B"` (any token containing a dash) splits on
every dash and requires exactly two parts (more raise the tuple-unpacking
ValueError), each stripped and parsed as `%Y%m%d`; a dashless token of
length 6 is parsed as `%Y%m` and extended to
`(start + 31 days).replace(day=1) - 1 day`; length 8 is parsed as
`%Y%m%d`; anything else raises ValueError. -/
def parse_date_input (l : List Char) : Except PyErr (PyDate × PyDate) :=
  if l.contains '-' then
    match pySplit l with
    | [a, b] =>
        match parseYMD (pyStrip a), parseYMD (pyStrip b) with
        | some s, some e => .ok (s, e)
        | _, _ => .error .valueError
    | _ => .error .valueError
  else if l.length = 6 then
    match parseYM l with
    | none => .error .valueError
    | some s =>
        let r := addDaysU s 31
        if r.year ≤ 9999 then .ok (s, prevDay ⟨r.year, r.month, 1⟩)
        else .error .overflowError
  else if l.length = 8 then
    match parseYMD l with
    | none => .error .valueError
    | some d => .ok (d, d)
  else .error .valueError

/-- The inner function `is_directory_in_range` (etl.py lines 97-113): parse the directory
name with `%Y%m`; on success compare `start_date <= dir_date <= end_date`,
on ValueError return False. -/
def is_directory_in_range (dir_name : List Char) (start_date end_date : PyDate) : Bool :=
  match parseYM dir_name with
  | some d => PyDate.le start_date d && PyDate.le d end_date
  | none => false

/-! Sanity checks of the parser model against observed CPython behaviour. -/

example : parse_date_input ("202002".data) = .ok (⟨2020, 2, 1⟩, ⟨2020, 2, 29⟩) := rfl
example : parse_date_input ("202102".data) = .ok (⟨2021, 2, 1⟩, ⟨2021, 2, 28⟩) := rfl
example : parse_date_input ("202012".data) = .ok (⟨2020, 12, 1⟩, ⟨2020, 12, 31⟩) := rfl
example : parse_date_input ("20230101-20230131".data) = .ok (⟨2023, 1, 1⟩, ⟨2023, 1, 31⟩) := rfl
example : parse_date_input ("1-2-3".data) = .error .valueError := rfl
example : parse_date_input ("202013".data) = .error .valueError := rfl
example : parse_date_input ("x".data) = .error .valueError := rfl
example : parse_date_input (" 20200101 - 20200102 ".data) = .ok (⟨2020, 1, 1⟩, ⟨2020, 1, 2⟩) := rfl
example : parse_date_input ("20200229".data) = .ok (⟨2020, 2, 29⟩, ⟨2020, 2, 29⟩) := rfl
example : parse_date_input ("20210229".data) = .error .valueError := rfl
example : is_directory_in_range ("notadate".data) ⟨2020, 2, 15⟩ ⟨2020, 3, 15⟩ = false := by decide

/-! ### `find_files_by_extension` (etl.py lines 22-44)

`os.walk` output is taken as input: the ordered list of `(root, files)`
pairs of the traversal (the `dirs` component is unused by the code). -/

/-- Python `os.path.join(root, file)` for a root without trailing separator. -/
def joinPath (root f : List Char) : List Char := root ++ '/' :: f

/-- Python `sub in s`: `sub` occurs contiguously in `s`. -/
def isSubstr (sub s : List Char) : Bool :=
  (List.range (s.length + 1)).any (fun i => sub.isPrefixOf (s.drop i))

/-- The function `find_files_by_extension(directory, extension, substring=None)`:
keep `file` when `file.endswith(extension) and (substring is None or
substring in file)`, collecting `os.path.join(root, file)` in walk order. -/
def find_files_by_extension (walk : List (List Char × List (List Char)))
    (extension : List Char) (substring : Option (List Char)) : List (List Char) :=
  walk.flatMap (fun rf =>
    (rf.2.filter (fun f =>
        extension.isSuffixOf f &&
          (match substring with
           | none => true
           | some s => isSubstr s f))).map (joinPath rf.1))

/-! ### Spec-side definitions (shape of the claims, not of the code)

These definitions follow the specification's words; they exist to state
claims C2 and C9 precisely so that they can be compared with what the
code does. -/

/-- Modelled from the spec: PathDateMatcher "filename mode".  No code in
`src/` implements it; `find_files_by_extension` (the symbol the claim
cites) filters by extension and optional substring only.  Spec words:
the filename matches if it contains (a) an 8-digit run `YYYYMMDD` whose
exact date falls in `[start, end]`, or (b) a day-range pattern
`DD-DDMonYYYY` whose derived sub-range `[range_start, range_end]`
overlaps `[start, end]` (`range_start ≤ end` and `start ≤ range_end`). -/
def specMonthNames : List (List Char × Nat) :=
  [("Jan".data, 1), ("Feb".data, 2), ("Mar".data, 3), ("Apr".data, 4),
   ("May".data, 5), ("Jun".data, 6), ("Jul".data, 7), ("Aug".data, 8),
   ("Sep".data, 9), ("Oct".data, 10), ("Nov".data, 11), ("Dec".data, 12)]

/-- Modelled from the spec: read an 8-digit `YYYYMMDD` run at the front of
`l` as a calendar date. -/
def specRead8 : List Char → Option PyDate
  | a :: b :: c :: d :: e :: f :: g :: h :: _ =>
      if (isDig a && isDig b && isDig c && isDig d &&
          isDig e && isDig f && isDig g && isDig h) then
        let y := 1000 * digitVal a + 100 * digitVal b + 10 * digitVal c + digitVal d
        let m := 10 * digitVal e + digitVal f
        let dd := 10 * digitVal g + digitVal h
        if 1 ≤ y ∧ 1 ≤ m ∧ m ≤ 12 ∧ 1 ≤ dd ∧ dd ≤ daysInMonth y m then
          some ⟨y, m, dd⟩
        else none
      else none
  | _ => none

/-- Modelled from the spec: read a `DD-DDMonYYYY` day-range at the front
of `l`, returning its derived sub-range. -/
def specReadDayRange : List Char → Option (PyDate × PyDate)
  | d1 :: d2 :: dash :: d3 :: d4 :: m1 :: m2 :: m3 :: y1 :: y2 :: y3 :: y4 :: _ =>
      if (isDig d1 && isDig d2 && (dash = '-') && isDig d3 && isDig d4 &&
          isDig y1 && isDig y2 && isDig y3 && isDig y4) then
        match (specMonthNames.filter (fun p => p.1 = [m1, m2, m3])).head? with
        | none => none
        | some (_, mo) =>
            let y := 1000 * digitVal y1 + 100 * digitVal y2 + 10 * digitVal y3 + digitVal y4
            some (⟨y, mo, 10 * digitVal d1 + digitVal d2⟩,
                  ⟨y, mo, 10 * digitVal d3 + digitVal d4⟩)
      else none
  | _ => none

/-- Modelled from the spec: the full filename-mode match against
`[start, end]`, scanning every position of the name for either pattern. -/
def specFilenameMatch (start_date end_date : PyDate) (name : List Char) : Bool :=
  (List.range (name.length + 1)).any (fun i =>
    (match specRead8 (name.drop i) with
     | some d => PyDate.le start_date d && PyDate.le d end_date
     | none => false) ||
    (match specReadDayRange (name.drop i) with
     | some (rs, re) => PyDate.le rs end_date && PyDate.le start_date re
     | none => false))

/-- Spec-side shape: a canonical `YYYYMM` token — six digits whose last
two form a zero-padded month, i.e. `0` followed by `1`..`9` (months
01..09) or `1` followed by `0`..`2` (months 10..12). -/
def isYYYYMM (l : List Char) : Bool :=
  match l with
  | [a, b, c, d, e, f] =>
      isDig a && isDig b && isDig c && isDig d &&
      ((e == '0' && (isDig f && !(f == '0'))) ||
       (e == '1' && (f == '0' || f == '1' || f == '2')))
  | _ => false

/-- Spec-side shape: a canonical `YYYYMMDD` token (eight digits with a
month 01..12 and a day 01..31). -/
def isYYYYMMDD (l : List Char) : Bool :=
  match l with
  | [a, b, c, d, e, f, g, h] =>
      isDig a && isDig b && isDig c && isDig d &&
      isDig e && isDig f && isDig g && isDig h &&
        decide (1 ≤ 10 * digitVal e + digitVal f ∧ 10 * digitVal e + digitVal f ≤ 12 ∧
                1 ≤ 10 * digitVal g + digitVal h ∧ 10 * digitVal g + digitVal h ≤ 31)
  | _ => false

/-! ### `flatten_iteratively` (etl.py lines 137-157)

A Python value that is either a list (of such values) or a non-list leaf
is the tagged union `Nested`.  The Python loop keeps a stack whose *end*
is popped and onto whose end `item[::-1]` is pushed; representing the
stack as a Lean list whose *head* is the next item popped, the initial
stack `nested_list[::-1]` is the input list itself and
`stack.extend(item[::-1])` prepends `item`. -/

inductive Nested (α : Type) where
  | leaf (a : α)
  | node (xs : List (Nested α))

/-- Total number of constructors in a stack, the loop's termination
measure. -/
def weigh : List (Nested α) → Nat
  | [] => 0
  | .leaf _ :: r => 1 + weigh r
  | .node xs :: r => 1 + weigh xs + weigh r

theorem weigh_append (a b : List (Nested α)) : weigh (a ++ b) = weigh a + weigh b := by
  induction a with
  | nil => simp [weigh]
  | cons x r ih =>
      cases x with
      | leaf v => simp [weigh, ih]; omega
      | node xs => simp [weigh, ih]; omega

/-- The while-loop of `flatten_iteratively`. -/
def flattenGo : List (Nested α) → List α
  | [] => []
  | .leaf a :: rest => a :: flattenGo rest
  | .node xs :: rest => flattenGo (xs ++ rest)
termination_by s => weigh s
decreasing_by all_goals (simp [weigh, weigh_append]; try omega)

/-- The function `flatten_iteratively(nested_list)`. -/
def flatten_iteratively (nested_list : List (Nested α)) : List α :=
  flattenGo nested_list

/-- The left-to-right leaves of a nested list (the specification's
description of the expected output). -/
def leavesL : List (Nested α) → List α
  | [] => []
  | .leaf a :: r => a :: leavesL r
  | .node xs :: r => leavesL xs ++ leavesL r
termination_by s => weigh s
decreasing_by all_goals (simp [weigh]; try omega)

example :
    flatten_iteratively
      [Nested.leaf 1, .node [.leaf 2, .node [.leaf 3, .leaf 4], .leaf 5], .leaf 6]
      = [1, 2, 3, 4, 5, 6] := by
  simp [flatten_iteratively, flattenGo]

/-! ### A model of the pandas values this code manipulates

A dataframe cell is a tagged Python value: a string, a Timestamp
(`.ts`, date plus time of day), a `datetime.time` (`.time`), a Timedelta
in microseconds (`.td`), or the missing marker NaN/NaT (`.nan`). -/

inductive Cell where
  | str (s : List Char)
  | ts (d : PyDate) (h mi sec us : Nat)
  | time (h mi sec us : Nat)
  | td (us : Nat)
  | nan
deriving DecidableEq, Repr

/-- A pandas DataFrame: labelled columns, row-major cells (each row
aligned with `cols`), and the row index. -/
structure DF where
  cols : List (List Char)
  rows : List (List Cell)
  idx : List Nat
deriving DecidableEq, Repr

/-! ### `pd.concat(dataframes, axis=0)` (used at etl.py line 206)

With the default `join="outer"`/`sort=False`, vertical concatenation
takes the union of the column labels in order of first appearance,
fills the cells a frame lacks with NaN, stacks the rows and keeps the
original row indexes.  It raises ValueError only when given no frames
("No objects to concatenate"); differing column sets are combined
silently. -/

def unionCols (ls : List (List (List Char))) : List (List Char) :=
  ls.foldl (fun acc cs => acc ++ cs.filter (fun c => ¬ acc.contains c)) []

/-- Re-align one row of a frame with columns `oldCols` to `newCols`,
filling missing columns with NaN. -/
def alignRow (oldCols newCols : List (List Char)) (row : List Cell) : List Cell :=
  newCols.map (fun c =>
    match oldCols.findIdx? (fun x => x == c) with
    | some i => row.getD i .nan
    | none => .nan)

def pd_concat_rows (fs : List DF) : Except PyErr DF :=
  match fs with
  | [] => .error .valueError
  | _ =>
      let cols := unionCols (fs.map DF.cols)
      .ok { cols := cols,
            rows := fs.flatMap (fun f => f.rows.map (alignRow f.cols cols)),
            idx := fs.flatMap DF.idx }

/-! ### `process_zipped_dat_files_with_fwf` (etl.py lines 163-221)

The archive's extracted contents are taken as input: the ordered list of
`(filename, frame)` pairs in walk order, where `frame` is the dataframe
`pd.read_fwf(file, colspecs="infer")` yields for that file (fixed-width
column inference itself is outside the claims).  The boolean
`unzipDirExists` records whether the extraction directory still exists
when the call returns or raises: the code has no `try/finally`, so
`shutil.rmtree` runs only on the successful `keep_unzipped=False` path,
and with `keep_unzipped=True` the directory (either `output_dir` or
`./tmp/`) is created, retained and `shutil.move`d onto itself (a no-op,
since source and destination are the same directory). -/

structure ZipRun where
  result : Except PyErr DF
  unzipDirExists : Bool
deriving Repr

def process_zipped_dat_files_with_fwf (entries : List (List Char × DF))
    (keep_unzipped : Bool) : ZipRun :=
  let dat_files := entries.filter (fun e => (".dat".data).isSuffixOf e.1)
  if dat_files.isEmpty then
    { result := .error .fileNotFoundError, unzipDirExists := true }
  else
    match pd_concat_rows (dat_files.map (fun e => e.2)) with
    | .error _ => { result := .error .valueError, unzipDirExists := true }
    | .ok df =>
        if keep_unzipped then { result := .ok df, unzipDirExists := true }
        else { result := .ok df, unzipDirExists := false }

/-! ### strptime-style parsers for the formats of `standard_df_clean`

pandas `to_datetime(..., format=...)` parses each string with the same
field semantics as CPython strptime (`array_strptime` is a port); the
additional matchers for `%H`, `%M`, `%S` and `%f` follow the regexes
listed at the top of this file. -/

/-- The `%H` alternatives `2[0-3]|[0-1]\d|\d`. -/
def hAlts : List Char → List (Nat × List Char)
  | c1 :: c2 :: r =>
      (if c1 = '2' ∧ (c2 = '0' ∨ c2 = '1' ∨ c2 = '2' ∨ c2 = '3') then [(20 + digitVal c2, r)] else []) ++
      (if (c1 = '0' ∨ c1 = '1') ∧ isDig c2 then [(10 * digitVal c1 + digitVal c2, r)] else []) ++
      (if isDig c1 then [(digitVal c1, c2 :: r)] else [])
  | [c1] => if isDig c1 then [(digitVal c1, [])] else []
  | [] => []

/-- The `%M` alternatives `[0-5]\d|\d`. -/
def minAlts : List Char → List (Nat × List Char)
  | c1 :: c2 :: r =>
      (if isDig c1 ∧ digitVal c1 ≤ 5 ∧ isDig c2 then [(10 * digitVal c1 + digitVal c2, r)] else []) ++
      (if isDig c1 then [(digitVal c1, c2 :: r)] else [])
  | [c1] => if isDig c1 then [(digitVal c1, [])] else []
  | [] => []

/-- The `%S` alternatives `6[0-1]|[0-5]\d|\d` (the 60/61 values are rejected
later by the datetime constructor). -/
def sAlts : List Char → List (Nat × List Char)
  | c1 :: c2 :: r =>
      (if c1 = '6' ∧ (c2 = '0' ∨ c2 = '1') then [(60 + digitVal c2, r)] else []) ++
      (if isDig c1 ∧ digitVal c1 ≤ 5 ∧ isDig c2 then [(10 * digitVal c1 + digitVal c2, r)] else []) ++
      (if isDig c1 then [(digitVal c1, c2 :: r)] else [])
  | [c1] => if isDig c1 then [(digitVal c1, [])] else []
  | [] => []

/-- The `%f` field: one to six digits, greedy, scaled to microseconds. -/
def fTake (l : List Char) : Option (Nat × List Char) :=
  let ds := (l.take 6).takeWhile isDig
  if ds.isEmpty then none
  else some ((ds.foldl (fun a c => 10 * a + digitVal c) 0) * 10 ^ (6 - ds.length),
             l.drop ds.length)

/-- Model of `strptime(s, "%Y-%m-%d")` as used by
`pd.to_datetime(df["date"], format="%Y-%m-%d")`. -/
def parseDashDate (l : List Char) : Option PyDate :=
  match yTake l with
  | none => none
  | some (y, r0) =>
      match r0 with
      | '-' :: r1 =>
          match (((mAlts r1).flatMap (fun p =>
                    match p.2 with
                    | '-' :: r3 => (dAlts r3).map (fun q => (p.1, q.1, q.2.isEmpty))
                    | _ => [])).filter (fun t => t.2.2)).head? with
          | none => none
          | some (m, d, _) =>
              if 1 ≤ y ∧ d ≤ daysInMonth y m then some ⟨y, m, d⟩ else none
      | _ => none

/-- Model of `strptime(s, "%H:%M:%S.%f")` as used by
`pd.to_datetime(df["time"], format="%H:%M:%S.%f")`; seconds 60/61 match
the regex but fail datetime construction. -/
def parseTimeHMSf (l : List Char) : Option (Nat × Nat × Nat × Nat) :=
  match (((hAlts l).flatMap (fun ph =>
            match ph.2 with
            | ':' :: r1 =>
                (minAlts r1).flatMap (fun pm =>
                  match pm.2 with
                  | ':' :: r2 =>
                      (sAlts r2).flatMap (fun ps =>
                        match ps.2 with
                        | '.' :: r3 =>
                            match fTake r3 with
                            | some (us, r4) => [(ph.1, pm.1, ps.1, us, r4.isEmpty)]
                            | none => []
                        | _ => [])
                  | _ => [])
            | _ => [])).filter (fun t => t.2.2.2.2)).head? with
  | none => none
  | some (h, mi, sec, us, _) => if sec ≤ 59 then some (h, mi, sec, us) else none

example : parseDashDate ("2023-01-01".data) = some ⟨2023, 1, 1⟩ := rfl
example : parseDashDate ("2023-1-1".data) = some ⟨2023, 1, 1⟩ := rfl
example : parseDashDate ("bad".data) = none := rfl
example : parseTimeHMSf ("13:45:00.000".data) = some (13, 45, 0, 0) := rfl
example : parseTimeHMSf ("1:2:3.4".data) = some (1, 2, 3, 400000) := rfl
example : parseTimeHMSf ("25:00:00.0".data) = none := rfl
example : parseTimeHMSf ("13:45:00".data) = none := rfl
example : parseTimeHMSf ("13:45:60.0".data) = none := rfl

/-! ### Column-label cleaning (`df.clean_names(case_type="snake")`)

Model of pyjanitor's `clean_names(case_type="snake")` on ASCII labels.
With the default arguments it composes, per label and in this order:
* `_change_case(..., "snake")`: `re.sub(r"(.)([A-Z][a-z]+)", r"\1_\2")`,
  then `re.sub(r"([a-z0-9])([A-Z])", r"\1_\2")`, then `str.lower()`.
  The combined effect of the two substitutions is that an underscore
  lands in front of every upper-case letter that has a preceding
  character and is either followed by a lower-case letter or preceded by
  a lower-case letter or digit (the first regex consumes the run it
  matched, but any boundary it thereby skips starts at a lower-case
  letter and is picked up by the second regex);
* `_normalize_1`: the characters of the class `[ /:,?()\.-]` and the
  non-breaking space become underscores, apostrophes (ASCII `0x27` and
  U+2019) are removed, every other character passes through unchanged;
* `re.sub("_+", "_")`: runs of underscores collapse to one
  (`strip_underscores` defaults to None, so none are stripped). -/

/-- The inner pass of `_change_case(..., "snake")`: walk the label with
the previous character at hand; the boundary test is the combined effect
of pyjanitor's two camel-case substitutions described above. -/
def snakeGo : Option Char → List Char → List Char
  | _, [] => []
  | prev, c :: r =>
      let boundary :=
        match prev with
        | none => false
        | some p => c.isUpper &&
            ((match r with | n :: _ => n.isLower | [] => false) || p.isLower || p.isDigit)
      (if boundary then ['_', c.toLower] else [c.toLower]) ++ snakeGo (some c) r

/-- The special characters of `_normalize_1`, the regex class
`[ /:,?()\.-]`. -/
def pyjSpecial (c : Char) : Bool :=
  c == ' ' || c == '/' || c == ':' || c == ',' || c == '?' ||
  c == '(' || c == ')' || c == '.' || c == '-'

/-- The per-character effect of `_normalize_1`: specials and the
non-breaking space become underscores, apostrophes (code points 39 and
8217) disappear, everything else is kept. -/
def normalizeChar (c : Char) : Option Char :=
  if pyjSpecial c || c.toNat == 160 then some '_'
  else if c.toNat == 39 || c.toNat == 8217 then none
  else some c

/-- The final `re.sub("_+", "_")`: collapse runs of underscores; the
flag records whether the previously kept character was an underscore. -/
def collapseGo : Bool → List Char → List Char
  | _, [] => []
  | prevU, c :: r =>
      if c == '_' then
        if prevU then collapseGo true r else '_' :: collapseGo true r
      else c :: collapseGo false r

/-- Model of one label under pyjanitor's
`clean_names(case_type="snake")`: snake-casing, then special-character
normalisation, then underscore collapsing. -/
def cleanName (n : List Char) : List Char :=
  collapseGo false ((snakeGo none n).filterMap normalizeChar)

example : cleanName ("DateTime".data) = "date_time".data := rfl
example : cleanName ("Date of visit".data) = "date_of_visit".data := rfl
example : cleanName ("DAte".data) = "d_ate".data := rfl
example : cleanName ("CH4 (ppm)".data) = "ch4_ppm_".data := rfl
example : cleanName ("a#b".data) = "a#b".data := rfl

/-! ### Cell-level conversions of `standard_df_clean` (etl.py lines 227-259) -/

/-- Model of `pd.to_datetime(col, format="%Y-%m-%d", errors="coerce")` on one
cell: strings parse to a midnight Timestamp or coerce to NaT,
datetime-likes pass through, anything else coerces to NaT. -/
def to_datetime_date : Cell → Cell
  | .str s => match parseDashDate s with
              | some d => .ts d 0 0 0 0
              | none => .nan
  | .ts d h mi sec us => .ts d h mi sec us
  | _ => .nan

/-- Model of `pd.to_datetime(col, format="%H:%M:%S.%f", errors="coerce").dt.time`
on one cell: strings parse to a `datetime.time` or coerce to NaT (whose
`.dt.time` is again NaT). -/
def to_datetime_time : Cell → Cell
  | .str s => match parseTimeHMSf s with
              | some (h, mi, sec, us) => .time h mi sec us
              | none => .nan
  | _ => .nan

/-- Model of `pd.Timestamp.combine(row["date"], row["time"])`
(= `Timestamp(datetime.combine(date, time))`):
* a Timestamp date and a `datetime.time` combine normally;
* `pd.NaT` passes `datetime.combine`'s date check (`NaTType` subclasses
  `datetime`) and contributes its base date 0001-01-01, which pandas ≥ 2
  accepts as a non-nanosecond Timestamp — an out-of-range garbage value,
  not a null marker;
* a NaT (or any non-`datetime.time`) second argument raises
  `TypeError: combine() argument 2 must be datetime.time`. -/
def combineCell : Cell → Cell → Except PyErr Cell
  | .ts d _ _ _ _, .time h mi sec us => .ok (.ts d h mi sec us)
  | .nan, .time h mi sec us => .ok (.ts ⟨1, 1, 1⟩ h mi sec us)
  | _, _ => .error .typeError

/-! ### DataFrame operations -/

/-- Position of a column label (first occurrence). -/
def DF.colIdx (df : DF) (name : List Char) : Nat :=
  df.cols.findIdx (fun c => c == name)

/-- The cells of a column. -/
def DF.getCol (df : DF) (name : List Char) : List Cell :=
  df.rows.map (fun r => r.getD (df.colIdx name) .nan)

/-- Pandas `df[name] = df[name].map(f)` — transform one column in place. -/
def DF.mapCol (df : DF) (name : List Char) (f : Cell → Cell) : DF :=
  { df with rows := df.rows.map (fun r =>
      r.set (df.colIdx name) (f (r.getD (df.colIdx name) .nan))) }

/-- Pandas `df[name] = vals`: replace an existing column in place, or append a
new column on the right. -/
def DF.setColVals (df : DF) (name : List Char) (vals : List Cell) : DF :=
  if df.cols.contains name then
    { df with rows := df.rows.zipWith (fun r v => r.set (df.colIdx name) v) vals }
  else
    { cols := df.cols ++ [name],
      rows := df.rows.zipWith (fun r v => r ++ [v]) vals,
      idx := df.idx }

/-- Pandas `df[newCols]` — select/reorder columns by label. -/
def DF.selectCols (df : DF) (newCols : List (List Char)) : DF :=
  { cols := newCols,
    rows := df.rows.map (fun r => newCols.map (fun c => r.getD (df.colIdx c) .nan)),
    idx := df.idx }

/-- Python `list.insert(i, a)` (an index past the end appends). -/
def pyInsert (l : List α) (i : Nat) (a : α) : List α := l.take i ++ a :: l.drop i

/-- Python `list.pop(i)` (the removal; the popped element is read
separately). -/
def pyPop (l : List α) (i : Nat) : List α := l.take i ++ l.drop (i + 1)

/-- Key order for `sort_values(by="datetime")`: chronological order of
Timestamp cells, lexicographic on (year, month, day, h, m, s, us);
only `.ts` cells are ever compared here. -/
def cellKey : Cell → List Nat
  | .ts d h mi sec us => [d.year, d.month, d.day, h, mi, sec, us]
  | _ => []

/-- Lexicographic comparison of equal-length `Nat` lists. -/
def lexNat : List Nat → List Nat → Bool
  | [], _ => true
  | _ :: _, [] => false
  | a :: as, b :: bs => if a < b then true else if a = b then lexNat as bs else false

def cellLe (a b : Cell) : Bool := lexNat (cellKey a) (cellKey b)

/-- Pandas `df.sort_values(by=name, ascending=False)`: rows (with their index
labels) reordered so the key column is non-increasing.  pandas' default
quicksort is unstable, so only the resulting order matters; insertion
sort realizes one admissible result. -/
def DF.sortValuesDesc (df : DF) (name : List Char) : DF :=
  let i := df.colIdx name
  let sorted := List.insertionSort
      (fun p q : List Cell × Nat => cellLe (q.1.getD i Cell.nan) (p.1.getD i Cell.nan) = true)
      (df.rows.zip df.idx)
  { cols := df.cols, rows := sorted.map Prod.fst, idx := sorted.map Prod.snd }

/-- Pandas `df.reset_index(drop=True)`. -/
def DF.resetIndex (df : DF) : DF := { df with idx := List.range df.rows.length }

/-! ### `standard_df_clean` (etl.py lines 227-259) -/

/-- Steps 01-03 of `standard_df_clean(df)` (etl.py lines 230-254):
snake-case the labels; require a `date` column (KeyError otherwise) and
convert it with `to_datetime(..., "%Y-%m-%d", errors="coerce")`; require
a `time` column (KeyError otherwise) and convert it with
`to_datetime(..., "%H:%M:%S.%f", errors="coerce").dt.time`; build
`datetime` by `Timestamp.combine` row by row (which raises for NaT
times) and store it as a column. -/
def df_after_datetime (df : DF) : Except PyErr DF :=
  let df1 : DF := { df with cols := df.cols.map cleanName }
  if ¬ df1.cols.contains ("date".data) then .error .keyError
  else
    let df2 := df1.mapCol ("date".data) to_datetime_date
    if ¬ df2.cols.contains ("time".data) then .error .keyError
    else
      let df3 := df2.mapCol ("time".data) to_datetime_time
      match df3.rows.mapM (fun r =>
          combineCell (r.getD (df3.colIdx ("date".data)) .nan)
                      (r.getD (df3.colIdx ("time".data)) .nan)) with
      | .error e => .error e
      | .ok dts => .ok (df3.setColVals ("datetime".data) dts)

/-- Steps 03 (column reorder) and 04 of `standard_df_clean` (etl.py
lines 252-257): move `datetime` to position 2 via
`cols.insert(2, cols.pop(cols.index("datetime")))`, sort descending by
`datetime`, reset the index. -/
def df_reorder_sort (df4 : DF) : DF :=
  let cols2 := pyInsert (pyPop df4.cols (df4.colIdx ("datetime".data))) 2 ("datetime".data)
  ((df4.selectCols cols2).sortValuesDesc ("datetime".data)).resetIndex

/-- The function `standard_df_clean(df)` (etl.py lines 227-259), the composition of
the two stages above. -/
def standard_df_clean (df : DF) : Except PyErr DF :=
  match df_after_datetime df with
  | .error e => .error e
  | .ok df4 => .ok (df_reorder_sort df4)

/-! ### `write_and_clean_chunk_to_sql` (etl.py lines 283-338)

The chunk argument is either a dask dataframe (whose `.compute()`
yields a pandas dataframe) or already a plain pandas dataframe, which
has no `.compute` attribute: the very first statement
`chunk = chunk.compute()` then raises AttributeError, before any
transformation or database write. -/

inductive PyChunk where
  | dask (df : DF)
  | plain (df : DF)

def PyChunk.compute : PyChunk → Except PyErr DF
  | .dask df => .ok df
  | .plain _ => .error .attributeError

/-- A number read greedily (`\d+`). -/
def natTake (l : List Char) : Option (Nat × List Char) :=
  let ds := l.takeWhile isDig
  if ds.isEmpty then none
  else some (ds.foldl (fun a c => 10 * a + digitVal c) 0, l.drop ds.length)

/-- Model of the `pd.to_timedelta` string grammar restricted to the
clock-like strings this pipeline produces: `H:MM:SS` with an optional
fractional part; minutes/seconds above 59 are rejected. -/
def parseTdStr (l : List Char) : Option Nat :=
  match natTake l with
  | some (h, ':' :: r1) =>
      match natTake r1 with
      | some (m, ':' :: r2) =>
          match natTake r2 with
          | some (s, []) =>
              if m ≤ 59 ∧ s ≤ 59 then some (((h * 60 + m) * 60 + s) * 1000000) else none
          | some (s, '.' :: r3) =>
              match fTake r3 with
              | some (us, []) =>
                  if m ≤ 59 ∧ s ≤ 59 then some (((h * 60 + m) * 60 + s) * 1000000 + us)
                  else none
              | _ => none
          | _ => none
      | _ => none
  | _ => none

/-- Model of `pd.to_timedelta(col)` on one cell (default `errors="raise"`):
strings must parse, NaN stays NaT, timedeltas pass through. -/
def to_timedelta_cell : Cell → Except PyErr Cell
  | .str s => match parseTdStr s with
              | some us => .ok (.td us)
              | none => .error .valueError
  | .td us => .ok (.td us)
  | .nan => .ok .nan
  | _ => .error .valueError

/-- Model of `chunk["date"] + chunk["time"]` on one row: Timestamp plus Timedelta
(missing values propagate NaT). -/
def addCell : Cell → Cell → Cell
  | .ts d h mi sec us, .td tus =>
      let tot := ((h * 60 + mi) * 60 + sec) * 1000000 + us + tus
      let rem := tot % 86400000000
      .ts (addDaysU d (tot / 86400000000))
          (rem / 3600000000) (rem / 60000000 % 60) (rem / 1000000 % 60) (rem % 1000000)
  | _, _ => .nan

/-- One record of the `chunk.to_sql(..., if_exists="append", ...)` call. -/
structure SqlWrite where
  table : List Char
  schema : List Char
  data : DF
deriving Repr

/-- The function `write_and_clean_chunk_to_sql(chunk, table_name, engine, schema,
batch_size)`: `.compute()` the chunk (AttributeError for a plain
dataframe), parse `date` (coerce) and `time` (raise), derive
`datetime = date + time`, rotate the last column to the end (a no-op
for distinct labels), move `datetime` to position 2, drop `date` and
`time`, and append the result to the SQL table.  The returned list is
the database write log. -/
def write_and_clean_chunk_to_sql (chunk : PyChunk) (table_name schema : List Char) :
    Except PyErr Unit × List SqlWrite :=
  match chunk.compute with
  | .error e => (.error e, [])
  | .ok df0 =>
      if ¬ df0.cols.contains ("date".data) then (.error .keyError, [])
      else
        let df1 := df0.mapCol ("date".data) to_datetime_date
        if ¬ df1.cols.contains ("time".data) then (.error .keyError, [])
        else
          match (df1.getCol ("time".data)).mapM to_timedelta_cell with
          | .error e => (.error e, [])
          | .ok tds =>
              let df2 := df1.setColVals ("time".data) tds
              let dts := df2.rows.map (fun r =>
                  addCell (r.getD (df2.colIdx ("date".data)) .nan)
                          (r.getD (df2.colIdx ("time".data)) .nan))
              let df3 := df2.setColVals ("datetime".data) dts
              let lastCol := df3.cols.getLastD []
              let df4 := df3.selectCols ((df3.cols.filter (fun c => c != lastCol)) ++ [lastCol])
              let df5 := df4.selectCols
                  (pyInsert (pyPop df4.cols (df4.colIdx ("datetime".data))) 2 ("datetime".data))
              let df6 := df5.selectCols
                  (df5.cols.filter (fun c => !(c == ("date".data) || c == ("time".data))))
              (.ok (), [{ table := table_name, schema := schema, data := df6 }])

/-! ## Helper lemmas -/

theorem isDig_dig (k : Nat) : isDig (dig k) = true := by
  have h : k % 10 < 10 := Nat.mod_lt _ (by omega)
  unfold dig isDig
  set j := k % 10 with hj
  interval_cases j <;> decide

theorem digitVal_dig (k : Nat) (hk : k ≤ 9) : digitVal (dig k) = k := by
  unfold dig digitVal
  have h : k % 10 = k := Nat.mod_eq_of_lt (by omega)
  rw [h]
  interval_cases k <;> decide

theorem dig_beq_dash (k : Nat) : ('-' == dig k) = false := by
  have h : k % 10 < 10 := Nat.mod_lt _ (by omega)
  unfold dig
  set j := k % 10 with hj
  interval_cases j <;> decide

/-- The canonical `YYYYMM` token of a year and month (zero-padded). -/
def ymToken (y m : Nat) : List Char :=
  [dig (y / 1000), dig (y / 100 % 10), dig (y / 10 % 10), dig (y % 10),
   dig (m / 10), dig (m % 10)]

theorem yTake_ymToken (y m : Nat) (hy : y ≤ 9999) :
    yTake (ymToken y m) = some (y, [dig (m / 10), dig (m % 10)]) := by
  have h1 : y / 1000 ≤ 9 := by omega
  have h2 : y / 100 % 10 ≤ 9 := by omega
  have h3 : y / 10 % 10 ≤ 9 := by omega
  have h4 : y % 10 ≤ 9 := by omega
  simp only [ymToken, yTake]
  rw [if_pos (by simp [isDig_dig])]
  rw [digitVal_dig _ h1, digitVal_dig _ h2, digitVal_dig _ h3, digitVal_dig _ h4]
  have e : 1000 * (y / 1000) + 100 * (y / 100 % 10) + 10 * (y / 10 % 10) + y % 10 = y := by
    omega
  rw [e]

theorem mAlts_month (m : Nat) (h1 : 1 ≤ m) (h2 : m ≤ 12) :
    ((mAlts [dig (m / 10), dig (m % 10)]).filter (fun p => p.2 = [])).head? = some (m, []) := by
  interval_cases m <;> decide

theorem parseYM_ymToken (y m : Nat) (hy1 : 1 ≤ y) (hy2 : y ≤ 9999)
    (hm1 : 1 ≤ m) (hm2 : m ≤ 12) :
    parseYM (ymToken y m) = some ⟨y, m, 1⟩ := by
  simp only [parseYM, yTake_ymToken y m hy2]
  rw [mAlts_month m hm1 hm2]
  simp [hy1]

theorem dim_bounds (y m : Nat) : 28 ≤ daysInMonth y m ∧ daysInMonth y m ≤ 31 := by
  unfold daysInMonth
  split
  · split <;> omega
  · split <;> omega

theorem addDaysU_within (y m k : Nat) : ∀ d : Nat, d + k ≤ daysInMonth y m →
    addDaysU ⟨y, m, d⟩ k = ⟨y, m, d + k⟩ := by
  induction k with
  | zero => intro d _; rfl
  | succ n ih =>
      intro d h
      show addDaysU ⟨y, m, d⟩ (n + 1) = _
      unfold addDaysU
      rw [if_pos (show (⟨y, m, d⟩ : PyDate).day < daysInMonth y m by simp; omega)]
      rw [ih (d + 1) (by omega)]
      congr 1
      omega

theorem addDaysU_add (a : Nat) : ∀ (d : PyDate) (b : Nat),
    addDaysU d (a + b) = addDaysU (addDaysU d a) b := by
  induction a with
  | zero => intro d b; rw [Nat.zero_add]; rfl
  | succ n ih =>
      intro d b
      rw [show n + 1 + b = (n + b) + 1 from by omega]
      show addDaysU d (n + b + 1) = addDaysU (addDaysU d (n + 1)) b
      simp only [addDaysU]
      split
      · exact ih _ _
      · split
        · exact ih _ _
        · exact ih _ _

theorem addDaysU_first31 (y m : Nat) :
    addDaysU ⟨y, m, 1⟩ 31 =
      (if m = 12 then (⟨y + 1, 1, 32 - daysInMonth y m⟩ : PyDate)
       else ⟨y, m + 1, 32 - daysInMonth y m⟩) := by
  obtain ⟨hd1, hd2⟩ := dim_bounds y m
  rw [show (31 : Nat) = (daysInMonth y m - 1) + (1 + (31 - daysInMonth y m)) from by omega]
  rw [addDaysU_add]
  rw [addDaysU_within y m (daysInMonth y m - 1) 1 (by omega)]
  rw [show 1 + (daysInMonth y m - 1) = daysInMonth y m from by omega]
  rw [show 1 + (31 - daysInMonth y m) = (31 - daysInMonth y m) + 1 from by omega]
  unfold addDaysU
  rw [if_neg (show ¬ ((⟨y, m, daysInMonth y m⟩ : PyDate).day < daysInMonth y m) by simp)]
  by_cases h12 : m = 12
  · rw [if_pos (show (⟨y, m, daysInMonth y m⟩ : PyDate).month = 12 by simp [h12])]
    rw [if_pos h12]
    rw [addDaysU_within (y + 1) 1 (31 - daysInMonth y m) 1
          (by obtain ⟨h1', h2'⟩ := dim_bounds (y + 1) 1; omega)]
    congr 1
    omega
  · rw [if_neg (show ¬ ((⟨y, m, daysInMonth y m⟩ : PyDate).month = 12) by simp [h12])]
    rw [if_neg h12]
    show addDaysU ⟨y, m + 1, 1⟩ (31 - daysInMonth y m) = _
    rw [addDaysU_within y (m + 1) (31 - daysInMonth y m) 1
          (by obtain ⟨h1', h2'⟩ := dim_bounds y (m + 1); omega)]
    congr 1
    omega

theorem ymToken_no_dash (y m : Nat) : (ymToken y m).contains '-' = false := by
  simp only [ymToken, List.contains, List.elem, dig_beq_dash]

/-! ## Claim C1 -/

/-- Claim C1 (corrected).  For a valid `YYYYMM` token of any month from
0001-01 to 9999-11, `parse_date_input` returns the first and the true
last calendar day of that month (the `(start + 31 days)` trick is
correct for every month length, February in leap and non-leap years
included).  The claim's universal statement over all valid `YYYYMM`
tokens fails only at `"999912"`, where `start + timedelta(days=31)`
leaves the datetime range and raises OverflowError instead — see the
counterexample theorem. -/
theorem claim1_yyyymm_month_range (y m : Nat) (hy1 : 1 ≤ y) (hy2 : y ≤ 9999)
    (hm1 : 1 ≤ m) (hm2 : m ≤ 12) (hne : ¬(y = 9999 ∧ m = 12)) :
    parse_date_input (ymToken y m) = .ok (⟨y, m, 1⟩, ⟨y, m, daysInMonth y m⟩) := by
  unfold parse_date_input
  rw [ymToken_no_dash]
  rw [if_neg (by simp)]
  rw [if_pos (show (ymToken y m).length = 6 from rfl)]
  simp only [parseYM_ymToken y m hy1 hy2 hm1 hm2]
  simp only [addDaysU_first31 y m]
  by_cases h12 : m = 12
  · subst h12
    rw [if_pos rfl]
    have hy3 : y ≤ 9998 := by
      rcases Nat.lt_or_ge y 9999 with h | h
      · omega
      · exact absurd ⟨by omega, rfl⟩ hne
    rw [if_pos (show (⟨y + 1, 1, 32 - daysInMonth y 12⟩ : PyDate).year ≤ 9999 by
          simp; omega)]
    unfold prevDay
    rw [if_neg (by simp)]
    rw [if_neg (by simp)]
    simp [daysInMonth]
  · rw [if_neg h12]
    rw [if_pos (show (⟨y, m + 1, 32 - daysInMonth y m⟩ : PyDate).year ≤ 9999 by
          simp; omega)]
    unfold prevDay
    rw [if_neg (by simp)]
    rw [if_pos (show 2 ≤ (⟨y, m + 1, 1⟩ : PyDate).month by simp; omega)]
    simp

/-- Claim C1, counterexample to the claim as stated: `"999912"` is a
valid `YYYYMM` token, but instead of returning 9999-12-01..9999-12-31
the code raises OverflowError (`9999-12-01 + timedelta(days=31)` is past
`datetime.max`). -/
theorem claim1_counterexample :
    parse_date_input ("999912".data) = .error .overflowError := rfl

/-- Claim C1, witness: the amended theorem applied to February 2020 (a
leap year) gives end = 2020-02-29. -/
theorem claim1_yyyymm_month_range_witness :
    parse_date_input ("202002".data) = .ok (⟨2020, 2, 1⟩, ⟨2020, 2, 29⟩) := by
  have h := claim1_yyyymm_month_range 2020 2 (by omega) (by omega) (by omega) (by omega)
      (by simp)
  rw [show ymToken 2020 2 = ("202002".data) from by decide] at h
  exact h

/-! ## Claim C6 -/

/-- Claim C6 (corrected).  Directory-name matching is governed by the
`%Y%m` parse, not by the six-character YYYYMM shape: every canonical
YYYYMM token matches the interval `[start, end]` exactly when the parsed
date — the first day of that month, the reading forced by the
specification's own example `202003` vs [2020-02-15, 2020-03-15] — lies
in the interval; more generally any name the format accepts (which
includes lax five-character forms such as `"20203"`) matches exactly
when its parsed date lies in the interval; and a name the format rejects
never matches and raises nothing (the ValueError is caught and returns
False).  Parts two and three together settle every directory name. -/
theorem claim6_directory_mode :
    (∀ (y m : Nat) (s e : PyDate), 1 ≤ y → y ≤ 9999 → 1 ≤ m → m ≤ 12 →
        is_directory_in_range (ymToken y m) s e
          = (PyDate.le s ⟨y, m, 1⟩ && PyDate.le ⟨y, m, 1⟩ e))
    ∧ (∀ (name : List Char) (d : PyDate) (s e : PyDate), parseYM name = some d →
        is_directory_in_range name s e = (PyDate.le s d && PyDate.le d e))
    ∧ (∀ (name : List Char) (s e : PyDate), parseYM name = none →
        is_directory_in_range name s e = false) := by
  refine ⟨?_, ?_, ?_⟩
  · intro y m s e hy1 hy2 hm1 hm2
    unfold is_directory_in_range
    rw [parseYM_ymToken y m hy1 hy2 hm1 hm2]
  · intro name d s e h
    unfold is_directory_in_range
    rw [h]
  · intro name s e h
    unfold is_directory_in_range
    rw [h]

/-- Claim C6, counterexample to the claim as stated: the five-character
name `"20203"` is not of the YYYYMM shape, yet `strptime(..., "%Y%m")`
accepts it (`[1-9]` is one of the `%m` regex alternatives), reads it as
2020-03, and the name therefore matches the range
[2020-03-01, 2020-03-31] even though it "does not parse as YYYYMM". -/
theorem claim6_counterexample :
    isYYYYMM ("20203".data) = false
    ∧ parseYM ("20203".data) = some ⟨2020, 3, 1⟩
    ∧ is_directory_in_range ("20203".data) ⟨2020, 3, 1⟩ ⟨2020, 3, 31⟩ = true := by
  refine ⟨by decide, by decide, by decide⟩

/-- Claim C6, witness: directory `202003` matches [2020-02-15,
2020-03-15]. -/
theorem claim6_directory_mode_witness :
    is_directory_in_range ("202003".data) ⟨2020, 2, 15⟩ ⟨2020, 3, 15⟩ = true := by
  have h := claim6_directory_mode.1 2020 3 ⟨2020, 2, 15⟩ ⟨2020, 3, 15⟩
      (by omega) (by omega) (by omega) (by omega)
  rw [show ymToken 2020 3 = ("202003".data) from by decide] at h
  rw [h]
  decide

/-! ## Claim C8 -/

theorem leavesL_append (a b : List (Nested α)) :
    leavesL (a ++ b) = leavesL a ++ leavesL b := by
  induction a with
  | nil => simp [leavesL]
  | cons x r ih =>
      cases x with
      | leaf v => simp [leavesL, ih]
      | node xs => simp [leavesL, ih]

/-- Claim C8 (confirmed).  For every nested list, at any depth,
`flatten_iteratively` returns the flat sequence of leaves in their
original left-to-right order; non-list items pass through, list items
are expanded. -/
theorem claim8_flatten_preserves_leaf_order {α : Type} (l : List (Nested α)) :
    flatten_iteratively l = leavesL l := by
  unfold flatten_iteratively
  induction l using flattenGo.induct with
  | case1 => simp [flattenGo, leavesL]
  | case2 a rest ih => simp [flattenGo, leavesL, ih]
  | case3 xs rest ih => simp [flattenGo, leavesL, leavesL_append, ih]

/-! ## Claim C2 -/

/-- Claim C2 (corrected).  What the flat recursive discovery actually
returns: exactly the files whose name ends with the extension and, when
a substring is given, contains it — there is no date filtering of any
kind in `find_files_by_extension`. -/
theorem claim2_extension_substring_filter (walk : List (List Char × List (List Char)))
    (extension : List Char) (substring : Option (List Char)) (p : List Char) :
    p ∈ find_files_by_extension walk extension substring ↔
      ∃ rf ∈ walk, ∃ f ∈ rf.2,
        extension.isSuffixOf f = true ∧
        (∀ s, substring = some s → isSubstr s f = true) ∧
        p = joinPath rf.1 f := by
  unfold find_files_by_extension
  cases substring with
  | none =>
      simp only [List.mem_flatMap, List.mem_map, List.mem_filter]
      constructor
      · rintro ⟨rf, hrf, f, ⟨hf, hcond⟩, hp⟩
        exact ⟨rf, hrf, f, hf, by simpa using hcond, by simp, hp.symm⟩
      · rintro ⟨rf, hrf, f, hf, hsuf, _, hp⟩
        exact ⟨rf, hrf, f, ⟨hf, by simp [hsuf]⟩, hp.symm⟩
  | some s =>
      simp only [List.mem_flatMap, List.mem_map, List.mem_filter]
      constructor
      · rintro ⟨rf, hrf, f, ⟨hf, hcond⟩, hp⟩
        simp only [Bool.and_eq_true] at hcond
        exact ⟨rf, hrf, f, hf, hcond.1, by intro t ht; cases ht; exact hcond.2, hp.symm⟩
      · rintro ⟨rf, hrf, f, hf, hsuf, hsub, hp⟩
        exact ⟨rf, hrf, f, ⟨hf, by simp [hsuf, hsub s rfl]⟩, hp.symm⟩

/-- Claim C2, counterexample to the claim as stated: with the interval
[2020-03-01, 2020-03-31], the file `no_date_here.zip` matches neither
the 8-digit `YYYYMMDD` pattern nor the `DD-DDMonYYYY` pattern of the
spec's filename mode, yet flat recursive discovery returns it. -/
theorem claim2_counterexample :
    find_files_by_extension [("base".data, [("no_date_here.zip".data)])] (".zip".data) none
        = [("base/no_date_here.zip".data)]
      ∧ specFilenameMatch ⟨2020, 3, 1⟩ ⟨2020, 3, 31⟩ ("no_date_here.zip".data) = false := by
  exact ⟨rfl, by decide⟩

/-! ## Claim C3 -/

/-- Claim C3 (code bug).  Two `.dat` files whose frames have disjoint
column sets `{a}` and `{b}`: `pd.concat(..., axis=0)` does not raise —
it silently outer-joins the columns and fills the holes with NaN, so the
`except ValueError` guard with the "ensure consistent structure" message
never fires for inconsistent structure and the function returns a
combined frame. -/
theorem claim3_schema_mismatch_not_raised :
    (process_zipped_dat_files_with_fwf
        [("a.dat".data, { cols := [['a']], rows := [[.str ['1']]], idx := [0] }),
         ("b.dat".data, { cols := [['b']], rows := [[.str ['2']]], idx := [0] })]
        false).result
      = .ok { cols := [['a'], ['b']],
              rows := [[.str ['1'], Cell.nan], [Cell.nan, .str ['2']]],
              idx := [0, 0] } := rfl

/-! ## Claim C5 -/

/-- Is a zip-processing result a success? -/
def zipOk : Except PyErr DF → Bool
  | .ok _ => true
  | .error _ => false

/-- Claim C5 (corrected).  The extraction directory survives the call
exactly when retention is requested or the call fails: there is no
`try/finally`, so `shutil.rmtree` runs only on the successful
`keep_unzipped=False` path. -/
theorem claim5_unzip_dir_cleanup (entries : List (List Char × DF)) (keep_unzipped : Bool) :
    (process_zipped_dat_files_with_fwf entries keep_unzipped).unzipDirExists
      = (keep_unzipped || !(zipOk (process_zipped_dat_files_with_fwf entries keep_unzipped).result)) := by
  cases keep_unzipped <;>
    cases he : (entries.filter (fun e => (".dat".data).isSuffixOf e.1)).isEmpty <;>
      cases hc : pd_concat_rows
          ((entries.filter (fun e => (".dat".data).isSuffixOf e.1)).map (fun e => e.2)) <;>
        simp [process_zipped_dat_files_with_fwf, he, hc, zipOk]

/-- Claim C5, counterexample to the claim as stated: a zip whose
contents have no `.dat` file fails with FileNotFoundError, and with
`keep_unzipped=False` the temporary extraction directory still exists
after the failed call. -/
theorem claim5_counterexample :
    (process_zipped_dat_files_with_fwf
        [("readme.txt".data, { cols := [], rows := [], idx := [] })] false).unzipDirExists
        = true
    ∧ (process_zipped_dat_files_with_fwf
        [("readme.txt".data, { cols := [], rows := [], idx := [] })] false).result
        = .error .fileNotFoundError := by
  exact ⟨rfl, rfl⟩

/-! ## Claim C10 -/

/-- Claim C10 (confirmed).  `write_and_clean_chunk_to_sql` calls
`.compute()` on its chunk unconditionally as its first statement; a
plain in-memory dataframe has no such attribute, so the call fails with
AttributeError and the write log is empty — nothing was transformed and
no row reached the database.  Only dask-style chunks get past this
point. -/
theorem claim10_plain_chunk_rejected (df : DF) (table_name schema : List Char) :
    write_and_clean_chunk_to_sql (.plain df) table_name schema
      = (.error .attributeError, []) := rfl

/-! ## Claim C9 -/

theorem char_eq_of_toNat_eq {a b : Char} (h : a.toNat = b.toNat) : a = b := by
  have h2 : a.val = b.val := UInt32.toNat.inj h
  exact Char.eq_of_val_eq h2

theorem pySplit_ne_nil (l : List Char) : pySplit l ≠ [] := by
  cases l with
  | nil => simp [pySplit]
  | cons c r =>
      unfold pySplit
      cases pySplit r with
      | nil => simp
      | cons h t => by_cases hc : c = '-' <;> simp [hc]

theorem pySplit_length (l : List Char) : (pySplit l).length = l.count '-' + 1 := by
  induction l with
  | nil => rfl
  | cons c r ih =>
      unfold pySplit
      cases e : pySplit r with
      | nil => exact absurd e (pySplit_ne_nil r)
      | cons h t =>
          rw [e] at ih
          have ih2 : t.length + 1 = r.count '-' + 1 := by simpa using ih
          by_cases hc : c = '-' <;> simp [hc, List.count_cons] <;> omega

theorem pySplit_sum (l : List Char) :
    ((pySplit l).map List.length).sum + l.count '-' = l.length := by
  induction l with
  | nil => rfl
  | cons c r ih =>
      unfold pySplit
      cases e : pySplit r with
      | nil => exact absurd e (pySplit_ne_nil r)
      | cons h t =>
          rw [e] at ih
          have ih2 : h.length + (t.map List.length).sum + r.count '-' = r.length := by
            simpa using ih
          by_cases hc : c = '-' <;> simp [hc, List.count_cons] <;> omega

theorem dropWhile_length_le (p : Char → Bool) (l : List Char) :
    (l.dropWhile p).length ≤ l.length := by
  induction l with
  | nil => simp
  | cons c r ih =>
      unfold List.dropWhile
      by_cases hc : p c <;> simp [hc] <;> omega

theorem pyStrip_length_le (l : List Char) : (pyStrip l).length ≤ l.length := by
  unfold pyStrip
  have h1 := dropWhile_length_le pyIsSpace l
  have h2 := dropWhile_length_le pyIsSpace (l.dropWhile pyIsSpace).reverse
  simp only [List.length_reverse] at *
  omega

theorem yTake4_rest (a b c d : Char) :
    yTake [a, b, c, d] = none ∨ ∃ y, yTake [a, b, c, d] = some (y, []) := by
  by_cases hd : isDig a = true ∧ isDig b = true ∧ isDig c = true ∧ isDig d = true
  · right
    exact ⟨1000 * digitVal a + 100 * digitVal b + 10 * digitVal c + digitVal d,
           by simp [yTake, hd]⟩
  · left; simp [yTake, hd]

theorem yTake5_rest (a b c d e : Char) :
    yTake [a, b, c, d, e] = none ∨ ∃ y, yTake [a, b, c, d, e] = some (y, [e]) := by
  by_cases hd : isDig a = true ∧ isDig b = true ∧ isDig c = true ∧ isDig d = true
  · right
    exact ⟨1000 * digitVal a + 100 * digitVal b + 10 * digitVal c + digitVal d,
           by simp [yTake, hd]⟩
  · left; simp [yTake, hd]

theorem parseYMD_short (l : List Char) (h : l.length < 6) : parseYMD l = none := by
  rcases l with _ | ⟨a, _ | ⟨b, _ | ⟨c, _ | ⟨d, _ | ⟨e, t⟩⟩⟩⟩⟩
  · rfl
  · rfl
  · rfl
  · rfl
  · unfold parseYMD
    rcases yTake4_rest a b c d with hy | ⟨y, hy⟩ <;> rw [hy] <;> try rfl
  · have ht : t = [] := by
      cases t with
      | nil => rfl
      | cons x xs => exfalso; simp at h; omega
    subst ht
    unfold parseYMD
    rcases yTake5_rest a b c d e with hy | ⟨y, hy⟩ <;> rw [hy] <;> try rfl
    by_cases he : isDig e = true ∧ e ≠ '0' <;> simp [mAlts, dAlts, he]

theorem dash_contains_of_count (l : List Char) (h : 1 ≤ l.count '-') :
    l.contains '-' = true := by
  induction l with
  | nil => simp [List.count_nil] at h
  | cons c r ih =>
      by_cases hc : c = '-'
      · simp [List.contains_cons, hc]
      · have hb : (('-' == c) : Bool) = false := by
          simp
          exact fun he => hc he.symm
        simp only [List.count_cons] at h
        have hb2 : ((c == '-') : Bool) = false := by simp [hc]
        rw [hb2] at h
        simp only [List.contains_cons, hb, Bool.false_or]
        apply ih
        simpa using h

/-- Any token containing a dash whose total length is at most 12 fails:
the two stripped sides have combined length at most 11, so at least one
is shorter than the 6 characters `%Y%m%d` minimally needs, and a third
dash part (if any) hits the tuple-unpacking ValueError. -/
theorem parse_dash_short (l : List Char) (hc : l.contains '-' = true)
    (hlen : l.length ≤ 12) : parse_date_input l = .error .valueError := by
  unfold parse_date_input
  rw [hc]
  rw [if_pos rfl]
  rcases e : pySplit l with _ | ⟨a, _ | ⟨b, _ | ⟨c', t⟩⟩⟩
  · exact absurd e (pySplit_ne_nil l)
  · rfl
  · have hsum := pySplit_sum l
    have hcnt := pySplit_length l
    rw [e] at hsum hcnt
    simp only [List.map_cons, List.map_nil, List.sum_cons, List.sum_nil,
      List.length_cons, List.length_nil] at hsum hcnt
    have hshort : a.length < 6 ∨ b.length < 6 := by omega
    rcases hshort with hs | hs
    · have ha : parseYMD (pyStrip a) = none :=
        parseYMD_short _ (by have := pyStrip_length_le a; omega)
      simp [ha]
    · have hb : parseYMD (pyStrip b) = none :=
        parseYMD_short _ (by have := pyStrip_length_le b; omega)
      cases hA : parseYMD (pyStrip a) <;> simp [hA, hb]
  · rfl

theorem yTake6_rest (a b c d e f : Char) :
    yTake [a, b, c, d, e, f] = none ∨
    (isDig a = true ∧ isDig b = true ∧ isDig c = true ∧ isDig d = true ∧
     yTake [a, b, c, d, e, f]
       = some (1000 * digitVal a + 100 * digitVal b + 10 * digitVal c + digitVal d, [e, f])) := by
  by_cases hd : isDig a = true ∧ isDig b = true ∧ isDig c = true ∧ isDig d = true
  · right
    exact ⟨hd.1, hd.2.1, hd.2.2.1, hd.2.2.2, by simp [yTake, hd]⟩
  · left; simp [yTake, hd]

theorem parseYM_none_of_shape (a b c d e f : Char)
    (h : isYYYYMM [a, b, c, d, e, f] = false) : parseYM [a, b, c, d, e, f] = none := by
  rcases yTake6_rest a b c d e f with hy | ⟨h1, h2, h3, h4, hy⟩
  · simp only [parseYM, hy]
  · simp only [parseYM, hy]
    by_cases c1 : e = '1' ∧ (f = '0' ∨ f = '1' ∨ f = '2')
    · exfalso
      obtain ⟨he, hf⟩ := c1
      subst he
      rcases hf with hf | hf | hf <;> subst hf <;>
        exact Bool.noConfusion
          ((show isYYYYMM _ = true by simp only [isYYYYMM, h1, h2, h3, h4]; decide).symm.trans h)
    · by_cases c2 : e = '0' ∧ isDig f = true ∧ f ≠ '0'
      · exfalso
        obtain ⟨he, hdf, hf0⟩ := c2
        subst he
        have hb0 : (f == '0') = false := by simp [hf0]
        exact Bool.noConfusion
          ((show isYYYYMM [a, b, c, d, '0', f] = true by
              simp only [isYYYYMM, h1, h2, h3, h4, hdf, hb0]; simp).symm.trans h)
      · simp only [mAlts, if_neg c1, if_neg c2, List.nil_append]
        by_cases c3 : isDig e = true ∧ e ≠ '0' <;> simp [c3]

theorem list_len6 {α : Type} (l : List α) (h : l.length = 6) :
    ∃ a b c d e f, l = [a, b, c, d, e, f] := by
  rcases l with _ | ⟨a, _ | ⟨b, _ | ⟨c, _ | ⟨d, _ | ⟨e, _ | ⟨f, t⟩⟩⟩⟩⟩⟩ <;> simp at h
  have ht : t = [] := by
    cases t with
    | nil => rfl
    | cons x xs => simp at h
  subst ht
  exact ⟨a, b, c, d, e, f, rfl⟩

/-- Claim C9 (corrected).  What does fail with ValueError: dashless
tokens of any length other than 6 or 8; tokens with two or more dashes
(the tuple unpacking fails); 6-character tokens that are not canonical
`YYYYMM`; and 8-character tokens the `%Y%m%d` format rejects.  The
claim's universal statement is false for single-dash tokens: because the
`%Y%m%d` regex accepts 1-2 digit month/day fields, a side need not be an
8-digit `YYYYMMDD` — see the counterexample, where `202011-202012`
parses as (2020-01-01, 2020-01-02). -/
theorem claim9_invalid_tokens_rejected :
    (∀ l : List Char, l.contains '-' = false → l.length ≠ 6 → l.length ≠ 8 →
        parse_date_input l = .error .valueError)
    ∧ (∀ l : List Char, 2 ≤ l.count '-' → parse_date_input l = .error .valueError)
    ∧ (∀ l : List Char, l.length = 6 → isYYYYMM l = false →
        parse_date_input l = .error .valueError)
    ∧ (∀ l : List Char, l.length = 8 → parseYMD l = none →
        parse_date_input l = .error .valueError) := by
  refine ⟨?_, ?_, ?_, ?_⟩
  · intro l hc h6 h8
    unfold parse_date_input
    rw [hc]
    rw [if_neg (by simp)]
    rw [if_neg h6, if_neg h8]
  · intro l hcnt
    have hc : l.contains '-' = true := dash_contains_of_count l (by omega)
    unfold parse_date_input
    rw [hc, if_pos rfl]
    have hlen := pySplit_length l
    rcases e : pySplit l with _ | ⟨a, _ | ⟨b, _ | ⟨c', t⟩⟩⟩
    · exact absurd e (pySplit_ne_nil l)
    · rfl
    · rw [e] at hlen
      simp at hlen
      omega
    · rfl
  · intro l h6 hshape
    by_cases hc : l.contains '-' = true
    · exact parse_dash_short l hc (by omega)
    · have hcf : l.contains '-' = false := by
        cases hcc : l.contains '-'
        · rfl
        · exact absurd hcc hc
      obtain ⟨a, b, c, d, e, f, hl⟩ := list_len6 l h6
      subst hl
      unfold parse_date_input
      rw [hcf]
      rw [if_neg (by simp)]
      rw [if_pos (by simp)]
      rw [parseYM_none_of_shape a b c d e f hshape]
  · intro l h8 hymd
    by_cases hc : l.contains '-' = true
    · exact parse_dash_short l hc (by omega)
    · have hcf : l.contains '-' = false := by
        cases hcc : l.contains '-'
        · rfl
        · exact absurd hcc hc
      unfold parse_date_input
      rw [hcf]
      rw [if_neg (by simp)]
      rw [if_neg (show ¬ l.length = 6 by omega)]
      rw [if_pos h8]
      rw [hymd]

/-- Claim C9, counterexample to the claim as stated: `"202011-202012"`
is none of `YYYYMM`, `YYYYMMDD`, `YYYYMMDD-YYYYMMDD` (its dash-split
sides are 6 characters, not 8), yet the parser succeeds on it —
`%Y%m%d` backtracking reads `202011` as 2020-01-01 and `202012` as
2020-01-02. -/
theorem claim9_counterexample :
    pySplit ("202011-202012".data) = ["202011".data, "202012".data]
    ∧ isYYYYMMDD ("202011".data) = false
    ∧ isYYYYMMDD ("202012".data) = false
    ∧ parse_date_input ("202011-202012".data) = .ok (⟨2020, 1, 1⟩, ⟨2020, 1, 2⟩) := by
  exact ⟨by decide, by decide, by decide, rfl⟩

/-- Claim C9, witness: a dashless 9-character token fails with
ValueError. -/
theorem claim9_invalid_tokens_rejected_witness :
    parse_date_input ("notadate!".data) = .error .valueError :=
  claim9_invalid_tokens_rejected.1 ("notadate!".data) (by decide) (by decide) (by decide)

/-! ## Claim C4 -/

/-- Claim C4 (code bug).  A row whose `time` value `"bad"` does not
parse as `%H:%M:%S.%f` is coerced to NaT by step 02 exactly as the
claim says — but step 03 then calls `Timestamp.combine(date, NaT)`,
which raises TypeError (NaT is not a `datetime.time`), so the whole
call fails instead of completing with a null marker in that row. -/
theorem claim4_unparseable_time_raises :
    standard_df_clean
        { cols := ["date".data, "time".data],
          rows := [[.str ("2023-01-01".data), .str ("bad".data)]],
          idx := [0] }
      = .error .typeError := rfl

/-! ## Claim C7 -/

theorem DF.mapCol_cols (df : DF) (n : List Char) (f : Cell → Cell) :
    (df.mapCol n f).cols = df.cols := rfl

theorem DF.setColVals_cols (df : DF) (n : List Char) (v : List Cell) :
    (df.setColVals n v).cols
      = if df.cols.contains n then df.cols else df.cols ++ [n] := by
  unfold DF.setColVals
  split <;> rfl

theorem contains_mem {x : List Char} {l : List (List Char)}
    (h : l.contains x = true) : x ∈ l := by
  simpa using h

theorem not_contains_not_mem {x : List Char} {l : List (List Char)}
    (h : ¬ l.contains x = true) : x ∉ l := by
  intro hm
  exact h (by simpa using hm)

theorem two_mem_length (l : List (List Char)) (h1 : ("date".data) ∈ l)
    (h2 : ("time".data) ∈ l) : 2 ≤ l.length := by
  have hsub : ({("date".data), ("time".data)} : Finset (List Char)) ⊆ l.toFinset := by
    intro x hx
    simp only [Finset.mem_insert, Finset.mem_singleton] at hx
    rcases hx with rfl | rfl
    · exact List.mem_toFinset.mpr h1
    · exact List.mem_toFinset.mpr h2
  have hc := Finset.card_le_card hsub
  have h4 : ({("date".data), ("time".data)} : Finset (List Char)).card = 2 := by decide
  have h5 := l.toFinset_card_le
  omega

theorem three_mem_length (l : List (List Char)) (h1 : ("date".data) ∈ l)
    (h2 : ("time".data) ∈ l) (h3 : ("datetime".data) ∈ l) : 3 ≤ l.length := by
  have hsub : ({("date".data), ("time".data), ("datetime".data)} : Finset (List Char))
      ⊆ l.toFinset := by
    intro x hx
    simp only [Finset.mem_insert, Finset.mem_singleton] at hx
    rcases hx with rfl | rfl | rfl
    · exact List.mem_toFinset.mpr h1
    · exact List.mem_toFinset.mpr h2
    · exact List.mem_toFinset.mpr h3
  have hc := Finset.card_le_card hsub
  have h4 : ({("date".data), ("time".data), ("datetime".data)} : Finset (List Char)).card = 3 := by
    decide
  have h5 := l.toFinset_card_le
  omega

theorem df_after_datetime_spec (df df4 : DF)
    (hnodup : (df.cols.map cleanName).Nodup)
    (h : df_after_datetime df = .ok df4) :
    df4.cols.Nodup ∧ ("datetime".data) ∈ df4.cols ∧ 3 ≤ df4.cols.length := by
  simp only [df_after_datetime, DF.mapCol_cols] at h
  by_cases hdate : (df.cols.map cleanName).contains ("date".data) = true
  case neg =>
    rw [if_pos hdate] at h
    cases h
  case pos =>
    rw [if_neg (not_not_intro hdate)] at h
    by_cases htime : (df.cols.map cleanName).contains ("time".data) = true
    case neg =>
      rw [if_pos htime] at h
      cases h
    case pos =>
      rw [if_neg (not_not_intro htime)] at h
      split at h
      · cases h
      · rw [Except.ok.injEq] at h
        subst h
        rw [DF.setColVals_cols, DF.mapCol_cols, DF.mapCol_cols]
        by_cases hdt : (df.cols.map cleanName).contains ("datetime".data) = true
        · rw [if_pos hdt]
          exact ⟨hnodup, contains_mem hdt,
                 three_mem_length _ (contains_mem hdate) (contains_mem htime)
                   (contains_mem hdt)⟩
        · rw [if_neg hdt]
          refine ⟨?_, by simp, ?_⟩
          · rw [List.nodup_append]
            exact ⟨hnodup, by simp, by
              intro x hx hx1
              simp at hx1
              subst hx1
              exact not_contains_not_mem hdt hx⟩
          · have := two_mem_length _ (contains_mem hdate) (contains_mem htime)
            simp only [List.length_append, List.length_cons, List.length_nil]
            omega

theorem lexNat_total : ∀ (a b : List Nat), lexNat a b = true ∨ lexNat b a = true := by
  intro a
  induction a with
  | nil => intro b; left; rfl
  | cons x as ih =>
      intro b
      cases b with
      | nil => right; rfl
      | cons y bs =>
          rcases Nat.lt_trichotomy x y with hlt | heq | hgt
          · left; simp [lexNat, hlt]
          · subst heq
            rcases ih bs with h2 | h2
            · left; simp [lexNat, h2]
            · right; simp [lexNat, h2]
          · right; simp [lexNat, hgt]

theorem lexNat_trans : ∀ (a b c : List Nat), lexNat a b = true → lexNat b c = true →
    lexNat a c = true := by
  intro a
  induction a with
  | nil => intro b c _ _; rfl
  | cons x as ih =>
      intro b c h1 h2
      cases b with
      | nil => simp [lexNat] at h1
      | cons y bs =>
          cases c with
          | nil => simp [lexNat] at h2
          | cons z cs =>
              simp only [lexNat] at h1 h2 ⊢
              split_ifs at h1 h2 ⊢ <;>
                first
                  | rfl
                  | omega
                  | (exact ih bs cs h1 h2)
                  | simp_all

theorem cellLe_total (x y : Cell) : cellLe x y = true ∨ cellLe y x = true :=
  lexNat_total _ _

theorem cellLe_trans {x y z : Cell} (h1 : cellLe x y = true) (h2 : cellLe y z = true) :
    cellLe x z = true :=
  lexNat_trans _ _ _ h1 h2

theorem findIdx_append_of_not (p : List Char → Bool) (u v : List (List Char))
    (hu : ∀ x ∈ u, p x = false) :
    List.findIdx p (u ++ v) = u.length + List.findIdx p v := by
  induction u with
  | nil => simp
  | cons a us ih =>
      have ha : p a = false := hu a (by simp)
      simp only [List.cons_append, List.findIdx_cons, ha, cond_false, List.length_cons]
      rw [ih (fun x hx => hu x (by simp [hx]))]
      omega

theorem reorder_cols_spec (nm : List Char) (cols4 : List (List Char)) (hnd : cols4.Nodup)
    (hm : nm ∈ cols4) (hlen : 3 ≤ cols4.length) :
    (pyInsert (pyPop cols4 (List.findIdx (fun c => c == nm) cols4)) 2 nm)[2]? = some nm
    ∧ (pyInsert (pyPop cols4 (List.findIdx (fun c => c == nm) cols4)) 2 nm).count nm = 1
    ∧ List.findIdx (fun c => c == nm)
        (pyInsert (pyPop cols4 (List.findIdx (fun c => c == nm) cols4)) 2 nm) = 2 := by
  have hip : ∃ x ∈ cols4, (x == nm) = true := ⟨_, hm, by simp⟩
  have hilt : List.findIdx (fun c => c == nm) cols4 < cols4.length :=
    List.findIdx_lt_length_of_exists hip
  have hget : cols4[List.findIdx (fun c => c == nm) cols4] = nm := by
    have h2 := List.findIdx_getElem (w := hilt)
    simpa using h2
  have hdecomp : cols4
      = cols4.take (List.findIdx (fun c => c == nm) cols4)
        ++ nm :: cols4.drop (List.findIdx (fun c => c == nm) cols4 + 1) := by
    conv_lhs =>
      rw [← List.take_append_drop (List.findIdx (fun c => c == nm) cols4) cols4]
    rw [List.drop_eq_getElem_cons hilt, hget]
  have hnd2 : (cols4.take (List.findIdx (fun c => c == nm) cols4)
      ++ nm :: cols4.drop (List.findIdx (fun c => c == nm) cols4 + 1)).Nodup := by
    rw [← hdecomp]
    exact hnd
  rw [List.nodup_append] at hnd2
  obtain ⟨hndu, hndv, hdisj⟩ := hnd2
  have hnv : nm ∉ cols4.drop (List.findIdx (fun c => c == nm) cols4 + 1) :=
    (List.nodup_cons.mp hndv).1
  have hnu : nm ∉ cols4.take (List.findIdx (fun c => c == nm) cols4) := by
    intro hmem
    exact hdisj hmem (by simp)
  have hcu : (cols4.take (List.findIdx (fun c => c == nm) cols4)).count nm = 0 :=
    List.count_eq_zero.mpr hnu
  have hcv : (cols4.drop (List.findIdx (fun c => c == nm) cols4 + 1)).count nm = 0 :=
    List.count_eq_zero.mpr hnv
  have hcntpop : (pyPop cols4 (List.findIdx (fun c => c == nm) cols4)).count nm = 0 := by
    unfold pyPop
    rw [List.count_append, hcu, hcv]
  have hlenpop : (pyPop cols4 (List.findIdx (fun c => c == nm) cols4)).length
      = cols4.length - 1 := by
    unfold pyPop
    rw [List.length_append]
    have h1 := List.length_take (List.findIdx (fun c => c == nm) cols4) cols4
    have h2 := List.length_drop (List.findIdx (fun c => c == nm) cols4 + 1) cols4
    omega
  have htk2 : ((pyPop cols4 (List.findIdx (fun c => c == nm) cols4)).take 2).length = 2 := by
    have := List.length_take 2 (pyPop cols4 (List.findIdx (fun c => c == nm) cols4))
    omega
  have hsp : ((pyPop cols4 (List.findIdx (fun c => c == nm) cols4)).take 2).count nm
      + ((pyPop cols4 (List.findIdx (fun c => c == nm) cols4)).drop 2).count nm = 0 := by
    rw [← List.count_append, List.take_append_drop]
    exact hcntpop
  refine ⟨?_, ?_, ?_⟩
  · unfold pyInsert
    rw [List.getElem?_append_right (by omega)]
    rw [htk2]
    simp
  · unfold pyInsert
    rw [List.count_append, List.count_cons]
    simp
    omega
  · unfold pyInsert
    rw [findIdx_append_of_not _ _ _ (by
      intro x hx
      have hxp : x ∈ pyPop cols4 (List.findIdx (fun c => c == nm) cols4) :=
        List.take_subset 2 _ hx
      have hxne : x ≠ nm := by
        intro he
        subst he
        have hzero := List.count_eq_zero.mp hcntpop
        exact hzero hxp
      simp [hxne])]
    rw [htk2]
    simp [List.findIdx_cons]

theorem sortValuesDesc_rows_pairwise (df : DF) (name : List Char) :
    List.Pairwise (fun r1 r2 : List Cell =>
      cellLe (r2.getD (df.colIdx name) Cell.nan) (r1.getD (df.colIdx name) Cell.nan) = true)
      (df.sortValuesDesc name).rows := by
  haveI ht : IsTotal (List Cell × Nat)
      (fun p q => cellLe (q.1.getD (df.colIdx name) Cell.nan)
        (p.1.getD (df.colIdx name) Cell.nan) = true) :=
    ⟨fun p q => cellLe_total _ _⟩
  haveI htr : IsTrans (List Cell × Nat)
      (fun p q => cellLe (q.1.getD (df.colIdx name) Cell.nan)
        (p.1.getD (df.colIdx name) Cell.nan) = true) :=
    ⟨fun p q r h1 h2 => cellLe_trans h2 h1⟩
  have hs := List.sorted_insertionSort
      (fun p q : List Cell × Nat => cellLe (q.1.getD (df.colIdx name) Cell.nan)
        (p.1.getD (df.colIdx name) Cell.nan) = true)
      (df.rows.zip df.idx)
  exact List.Pairwise.map Prod.fst (fun a b hab => hab) hs

theorem df_reorder_sort_spec (df4 : DF) (hnd : df4.cols.Nodup)
    (hm : ("datetime".data) ∈ df4.cols) (hlen : 3 ≤ df4.cols.length) :
    (df_reorder_sort df4).cols[2]? = some ("datetime".data)
    ∧ (df_reorder_sort df4).cols.count ("datetime".data) = 1
    ∧ List.Pairwise (fun r1 r2 : List Cell =>
        cellLe (r2.getD 2 Cell.nan) (r1.getD 2 Cell.nan) = true) (df_reorder_sort df4).rows
    ∧ (df_reorder_sort df4).idx = List.range (df_reorder_sort df4).rows.length := by
  obtain ⟨hA, hB, hC⟩ := reorder_cols_spec ("datetime".data) df4.cols hnd hm hlen
  refine ⟨hA, hB, ?_, rfl⟩
  have hp := sortValuesDesc_rows_pairwise
      (df4.selectCols (pyInsert (pyPop df4.cols (df4.colIdx ("datetime".data))) 2
        ("datetime".data)))
      ("datetime".data)
  have hidx : (df4.selectCols (pyInsert (pyPop df4.cols (df4.colIdx ("datetime".data))) 2
      ("datetime".data))).colIdx ("datetime".data) = 2 := hC
  rw [hidx] at hp
  exact hp

theorem DF.mapCol_rows (df : DF) (n : List Char) (f : Cell → Cell) :
    (df.mapCol n f).rows = df.rows.map (fun r =>
      r.set (df.colIdx n) (f (r.getD (df.colIdx n) Cell.nan))) := rfl

theorem DF.mapCol_colIdx (df : DF) (n m : List Char) (f : Cell → Cell) :
    (df.mapCol n f).colIdx m = df.colIdx m := rfl

theorem DF.selectCols_rows (df : DF) (cs : List (List Char)) :
    (df.selectCols cs).rows
      = df.rows.map (fun r => cs.map (fun c => r.getD (df.colIdx c) Cell.nan)) := rfl

theorem DF.sortValuesDesc_rows (df : DF) (name : List Char) :
    (df.sortValuesDesc name).rows = (List.insertionSort
      (fun p q : List Cell × Nat => cellLe (q.1.getD (df.colIdx name) Cell.nan)
        (p.1.getD (df.colIdx name) Cell.nan) = true)
      (df.rows.zip df.idx)).map Prod.fst := rfl

theorem DF.setColVals_rows_pos (df : DF) (n : List Char) (v : List Cell)
    (h : df.cols.contains n = true) :
    (df.setColVals n v).rows
      = df.rows.zipWith (fun r x => r.set (df.colIdx n) x) v := by
  unfold DF.setColVals
  rw [if_pos h]

theorem DF.setColVals_rows_neg (df : DF) (n : List Char) (v : List Cell)
    (h : ¬ df.cols.contains n = true) :
    (df.setColVals n v).rows = df.rows.zipWith (fun r x => r ++ [x]) v := by
  unfold DF.setColVals
  rw [if_neg h]

theorem DF.setColVals_colIdx (df : DF) (n m : List Char) (v : List Cell) :
    (df.setColVals n v).colIdx m
      = if df.cols.contains n then df.colIdx m
        else List.findIdx (fun c => c == m) (df.cols ++ [n]) := by
  unfold DF.setColVals DF.colIdx
  split
  · rfl
  · rfl

theorem mapM_ok_forall2 {α β : Type} (f : α → Except PyErr β) :
    ∀ (l : List α) (res : List β), l.mapM f = .ok res →
      List.Forall₂ (fun a b => f a = .ok b) l res := by
  intro l
  induction l with
  | nil =>
      intro res h
      rw [List.mapM_nil] at h
      have h2 : (Except.ok ([] : List β) : Except PyErr (List β)) = .ok res := h
      rw [Except.ok.injEq] at h2
      subst h2
      exact List.Forall₂.nil
  | cons a as ih =>
      intro res h
      rw [List.mapM_cons] at h
      cases hfa : f a with
      | error e =>
          rw [hfa] at h
          have h2 : (Except.error e : Except PyErr (List β)) = .ok res := h
          cases h2
      | ok b =>
          rw [hfa] at h
          cases has : as.mapM f with
          | error e =>
              rw [has] at h
              have h2 : (Except.error e : Except PyErr (List β)) = .ok res := h
              cases h2
          | ok bs =>
              rw [has] at h
              have h2 : (Except.ok (b :: bs) : Except PyErr (List β)) = .ok res := h
              rw [Except.ok.injEq] at h2
              subst h2
              exact List.Forall₂.cons hfa (ih bs has)

theorem mem_zipWith_forall2 {α β γ : Type} {R : α → β → Prop} (g : α → β → γ)
    {l1 : List α} {l2 : List β} (h : List.Forall₂ R l1 l2) :
    ∀ x ∈ List.zipWith g l1 l2, ∃ a b, a ∈ l1 ∧ R a b ∧ x = g a b := by
  induction h with
  | nil => intro x hx; simp at hx
  | cons ha hrest ih =>
      intro x hx
      rw [List.zipWith_cons_cons, List.mem_cons] at hx
      rcases hx with rfl | hx
      · exact ⟨_, _, by simp, ha, rfl⟩
      · obtain ⟨a2, b2, hmem, hr, he⟩ := ih x hx
        exact ⟨a2, b2, by simp [hmem], hr, he⟩

theorem getD_set_ne (r : List Cell) (i j : Nat) (v : Cell) (hne : i ≠ j) :
    (r.set i v).getD j Cell.nan = r.getD j Cell.nan := by
  rw [List.getD_eq_getElem?_getD, List.getD_eq_getElem?_getD, List.getElem?_set_ne hne]

theorem getD_set_self (r : List Cell) (i : Nat) (v : Cell) (hi : i < r.length) :
    (r.set i v).getD i Cell.nan = v := by
  rw [List.getD_eq_getElem?_getD, List.getElem?_set_self hi]
  rfl

theorem getD_append_left (r s : List Cell) (j : Nat) (hj : j < r.length) :
    (r ++ s).getD j Cell.nan = r.getD j Cell.nan := by
  rw [List.getD_eq_getElem?_getD, List.getD_eq_getElem?_getD, List.getElem?_append]
  rw [if_pos hj]

theorem getD_append_self (r : List Cell) (v : Cell) :
    (r ++ [v]).getD r.length Cell.nan = v := by
  rw [List.getD_eq_getElem?_getD, List.getElem?_append]
  rw [if_neg (by omega)]
  simp

theorem findIdx_name_ne (C : List (List Char)) (a b : List Char)
    (ha : a ∈ C) (hb : b ∈ C) (hne : a ≠ b) :
    List.findIdx (fun c => c == a) C ≠ List.findIdx (fun c => c == b) C := by
  intro he
  have hla : List.findIdx (fun c => c == a) C < C.length :=
    List.findIdx_lt_length_of_exists ⟨a, ha, by simp⟩
  have hlb : List.findIdx (fun c => c == b) C < C.length :=
    List.findIdx_lt_length_of_exists ⟨b, hb, by simp⟩
  have hga : C[List.findIdx (fun c => c == a) C] = a := by
    simpa using List.findIdx_getElem (w := hla)
  have hgb : C[List.findIdx (fun c => c == b) C] = b := by
    simpa using List.findIdx_getElem (w := hlb)
  have h1 : C[List.findIdx (fun c => c == a) C]? = some a := by
    rw [List.getElem?_eq_getElem hla, hga]
  have h2 : C[List.findIdx (fun c => c == b) C]? = some b := by
    rw [List.getElem?_eq_getElem hlb, hgb]
  rw [he] at h1
  rw [h1] at h2
  exact hne (Option.some.inj h2)

theorem findIdx_append_left (p : List Char → Bool) (u v : List (List Char))
    (h : List.findIdx p u < u.length) :
    List.findIdx p (u ++ v) = List.findIdx p u := by
  rw [List.findIdx_append, if_pos h]

theorem mem_reordered_cols (nm x : List Char) (cols4 : List (List Char))
    (hnm : nm ∈ cols4) (hx : x ∈ cols4) (hne : x ≠ nm) :
    x ∈ pyInsert (pyPop cols4 (List.findIdx (fun c => c == nm) cols4)) 2 nm := by
  have hilt : List.findIdx (fun c => c == nm) cols4 < cols4.length :=
    List.findIdx_lt_length_of_exists ⟨nm, hnm, by simp⟩
  have hget : cols4[List.findIdx (fun c => c == nm) cols4] = nm := by
    simpa using List.findIdx_getElem (w := hilt)
  have hxp : x ∈ pyPop cols4 (List.findIdx (fun c => c == nm) cols4) := by
    unfold pyPop
    have hsplit : x ∈ cols4.take (List.findIdx (fun c => c == nm) cols4)
        ++ cols4.drop (List.findIdx (fun c => c == nm) cols4) := by
      rw [List.take_append_drop]
      exact hx
    rw [List.mem_append] at hsplit
    rcases hsplit with h1 | h1
    · exact List.mem_append.mpr (Or.inl h1)
    · rw [List.drop_eq_getElem_cons hilt, List.mem_cons] at h1
      rcases h1 with h2 | h2
      · exact absurd (h2.trans hget) hne
      · exact List.mem_append.mpr (Or.inr h2)
  unfold pyInsert
  have hsplit2 : x ∈ (pyPop cols4 (List.findIdx (fun c => c == nm) cols4)).take 2
      ++ (pyPop cols4 (List.findIdx (fun c => c == nm) cols4)).drop 2 := by
    rw [List.take_append_drop]
    exact hxp
  rw [List.mem_append] at hsplit2
  rcases hsplit2 with h1 | h1
  · exact List.mem_append.mpr (Or.inl h1)
  · exact List.mem_append.mpr (Or.inr (List.mem_cons.mpr (Or.inr h1)))

theorem mapped_row_at_name (f : List Char → Cell) (cols2 : List (List Char))
    (nm : List Char) (hmem : nm ∈ cols2) :
    (cols2.map f).getD (List.findIdx (fun c => c == nm) cols2) Cell.nan = f nm := by
  have hilt : List.findIdx (fun c => c == nm) cols2 < cols2.length :=
    List.findIdx_lt_length_of_exists ⟨nm, hmem, by simp⟩
  have hget : cols2[List.findIdx (fun c => c == nm) cols2] = nm := by
    simpa using List.findIdx_getElem (w := hilt)
  rw [List.getD_eq_getElem?_getD, List.getElem?_map, List.getElem?_eq_getElem hilt, hget]
  rfl

theorem mapped_row_at_two (f : List Char → Cell) (cols2 : List (List Char))
    (nm : List Char) (h2 : cols2[2]? = some nm) :
    (cols2.map f).getD 2 Cell.nan = f nm := by
  rw [List.getD_eq_getElem?_getD, List.getElem?_map, h2]
  rfl

theorem sortValuesDesc_rows_subset (df : DF) (name : List Char) (row : List Cell)
    (h : row ∈ (df.sortValuesDesc name).rows) : row ∈ df.rows := by
  rw [DF.sortValuesDesc_rows, List.mem_map] at h
  obtain ⟨p, hp, hfst⟩ := h
  rw [List.mem_insertionSort] at hp
  obtain ⟨a, b⟩ := p
  cases hfst
  exact (List.of_mem_zip hp).1

theorem df_after_datetime_rows (df df4 : DF)
    (halign : ∀ r ∈ df.rows, r.length = df.cols.length)
    (h : df_after_datetime df = .ok df4) :
    ("date".data) ∈ df4.cols ∧ ("time".data) ∈ df4.cols ∧
    ∀ r4 ∈ df4.rows,
      combineCell (r4.getD (df4.colIdx ("date".data)) Cell.nan)
                  (r4.getD (df4.colIdx ("time".data)) Cell.nan)
        = .ok (r4.getD (df4.colIdx ("datetime".data)) Cell.nan) := by
  simp only [df_after_datetime, DF.mapCol_cols] at h
  by_cases hdate : (df.cols.map cleanName).contains ("date".data) = true
  case neg =>
    rw [if_pos hdate] at h
    cases h
  case pos =>
    rw [if_neg (not_not_intro hdate)] at h
    by_cases htime : (df.cols.map cleanName).contains ("time".data) = true
    case neg =>
      rw [if_pos htime] at h
      cases h
    case pos =>
      rw [if_neg (not_not_intro htime)] at h
      split at h
      · cases h
      · rename_i dts hdts
        rw [Except.ok.injEq] at h
        subst h
        have hdm : ("date".data) ∈ df.cols.map cleanName := contains_mem hdate
        have htm : ("time".data) ∈ df.cols.map cleanName := contains_mem htime
        have hdlt : List.findIdx (fun c => c == ("date".data)) (df.cols.map cleanName)
            < (df.cols.map cleanName).length :=
          List.findIdx_lt_length_of_exists ⟨_, hdm, by simp⟩
        have htlt : List.findIdx (fun c => c == ("time".data)) (df.cols.map cleanName)
            < (df.cols.map cleanName).length :=
          List.findIdx_lt_length_of_exists ⟨_, htm, by simp⟩
        have halign3 : ∀ r ∈ ((({df with cols := df.cols.map cleanName} : DF).mapCol
            ("date".data) to_datetime_date).mapCol ("time".data) to_datetime_time).rows,
            r.length = (df.cols.map cleanName).length := by
          intro r hr
          rw [DF.mapCol_rows, DF.mapCol_rows, List.mem_map] at hr
          obtain ⟨r1, hr1, hre1⟩ := hr
          rw [List.mem_map] at hr1
          obtain ⟨r0, hr0, hre0⟩ := hr1
          subst hre1
          subst hre0
          simp only [List.length_set]
          rw [List.length_map]
          exact halign r0 hr0
        have hf2 := mapM_ok_forall2 _ _ _ hdts
        by_cases hdt : (df.cols.map cleanName).contains ("datetime".data) = true
        case pos =>
          refine ⟨?_, ?_, ?_⟩
          · rw [DF.setColVals_cols, DF.mapCol_cols, DF.mapCol_cols, if_pos hdt]
            exact hdm
          · rw [DF.setColVals_cols, DF.mapCol_cols, DF.mapCol_cols, if_pos hdt]
            exact htm
          · intro r4 hr4
            rw [DF.setColVals_rows_pos _ _ _ (by exact hdt)] at hr4
            obtain ⟨r3, v, hr3, hrel, hre⟩ := mem_zipWith_forall2 _ hf2 r4 hr4
            subst hre
            simp only [DF.colIdx, DF.setColVals_cols, DF.mapCol_cols] at hrel ⊢
            rw [if_pos hdt]
            have hdtm2 : ['d', 'a', 't', 'e', 't', 'i', 'm', 'e']
                ∈ List.map cleanName df.cols := contains_mem hdt
            have hdm2 : ['d', 'a', 't', 'e'] ∈ List.map cleanName df.cols := hdm
            have htm2 : ['t', 'i', 'm', 'e'] ∈ List.map cleanName df.cols := htm
            have hdtlt2 : List.findIdx (fun c => c == ['d', 'a', 't', 'e', 't', 'i', 'm', 'e'])
                (List.map cleanName df.cols) < (List.map cleanName df.cols).length :=
              List.findIdx_lt_length_of_exists ⟨_, hdtm2, by simp⟩
            have hne1 : List.findIdx (fun c => c == ['d', 'a', 't', 'e', 't', 'i', 'm', 'e'])
                (List.map cleanName df.cols)
                ≠ List.findIdx (fun c => c == ['d', 'a', 't', 'e'])
                  (List.map cleanName df.cols) :=
              findIdx_name_ne _ _ _ hdtm2 hdm2 (by decide)
            have hne2 : List.findIdx (fun c => c == ['d', 'a', 't', 'e', 't', 'i', 'm', 'e'])
                (List.map cleanName df.cols)
                ≠ List.findIdx (fun c => c == ['t', 'i', 'm', 'e'])
                  (List.map cleanName df.cols) :=
              findIdx_name_ne _ _ _ hdtm2 htm2 (by decide)
            have hr3len : r3.length = (List.map cleanName df.cols).length := halign3 r3 hr3
            rw [getD_set_ne _ _ _ _ hne1, getD_set_ne _ _ _ _ hne2,
                getD_set_self _ _ _ (by rw [hr3len]; exact hdtlt2)]
            exact hrel
        case neg =>
          have hnotin : ("datetime".data) ∉ df.cols.map cleanName :=
            not_contains_not_mem hdt
          have hallf : ∀ x ∈ df.cols.map cleanName, (x == ("datetime".data)) = false := by
            intro x hx
            rw [beq_eq_false_iff_ne]
            intro he
            subst he
            exact hnotin hx
          have hidx_dt : List.findIdx (fun c => c == ("datetime".data))
              (df.cols.map cleanName ++ [("datetime".data)])
              = (df.cols.map cleanName).length := by
            rw [findIdx_append_of_not _ _ _ hallf]
            simp [List.findIdx_cons]
          have hidx_d : List.findIdx (fun c => c == ("date".data))
              (df.cols.map cleanName ++ [("datetime".data)])
              = List.findIdx (fun c => c == ("date".data)) (df.cols.map cleanName) :=
            findIdx_append_left _ _ _ hdlt
          have hidx_t : List.findIdx (fun c => c == ("time".data))
              (df.cols.map cleanName ++ [("datetime".data)])
              = List.findIdx (fun c => c == ("time".data)) (df.cols.map cleanName) :=
            findIdx_append_left _ _ _ htlt
          refine ⟨?_, ?_, ?_⟩
          · rw [DF.setColVals_cols, DF.mapCol_cols, DF.mapCol_cols, if_neg hdt]
            exact List.mem_append.mpr (Or.inl hdm)
          · rw [DF.setColVals_cols, DF.mapCol_cols, DF.mapCol_cols, if_neg hdt]
            exact List.mem_append.mpr (Or.inl htm)
          · intro r4 hr4
            rw [DF.setColVals_rows_neg _ _ _ (by exact hdt)] at hr4
            obtain ⟨r3, v, hr3, hrel, hre⟩ := mem_zipWith_forall2 _ hf2 r4 hr4
            subst hre
            simp only [DF.colIdx, DF.setColVals_cols, DF.mapCol_cols] at hrel ⊢
            rw [if_neg hdt]
            have hidx_dt2 : List.findIdx (fun c => c == ['d', 'a', 't', 'e', 't', 'i', 'm', 'e'])
                (List.map cleanName df.cols ++ [['d', 'a', 't', 'e', 't', 'i', 'm', 'e']])
                = (List.map cleanName df.cols).length := hidx_dt
            have hidx_d2 : List.findIdx (fun c => c == ['d', 'a', 't', 'e'])
                (List.map cleanName df.cols ++ [['d', 'a', 't', 'e', 't', 'i', 'm', 'e']])
                = List.findIdx (fun c => c == ['d', 'a', 't', 'e'])
                  (List.map cleanName df.cols) := hidx_d
            have hidx_t2 : List.findIdx (fun c => c == ['t', 'i', 'm', 'e'])
                (List.map cleanName df.cols ++ [['d', 'a', 't', 'e', 't', 'i', 'm', 'e']])
                = List.findIdx (fun c => c == ['t', 'i', 'm', 'e'])
                  (List.map cleanName df.cols) := hidx_t
            have hdlt2 : List.findIdx (fun c => c == ['d', 'a', 't', 'e'])
                (List.map cleanName df.cols) < (List.map cleanName df.cols).length := hdlt
            have htlt2 : List.findIdx (fun c => c == ['t', 'i', 'm', 'e'])
                (List.map cleanName df.cols) < (List.map cleanName df.cols).length := htlt
            rw [hidx_dt2, hidx_d2, hidx_t2]
            have hr3len : r3.length = (List.map cleanName df.cols).length := halign3 r3 hr3
            rw [getD_append_left _ _ _ (by rw [hr3len]; exact hdlt2),
                getD_append_left _ _ _ (by rw [hr3len]; exact htlt2)]
            rw [← hr3len, getD_append_self]
            exact hrel

theorem selected_row_combine (df4 : DF) (r4 : List Cell) (cols2 : List (List Char))
    (h2 : cols2[2]? = some ("datetime".data))
    (hdm2 : ("date".data) ∈ cols2) (htm2 : ("time".data) ∈ cols2)
    (hr : combineCell (r4.getD (df4.colIdx ("date".data)) Cell.nan)
                      (r4.getD (df4.colIdx ("time".data)) Cell.nan)
        = .ok (r4.getD (df4.colIdx ("datetime".data)) Cell.nan)) :
    combineCell ((cols2.map (fun c => r4.getD (df4.colIdx c) Cell.nan)).getD
        (List.findIdx (fun c => c == ("date".data)) cols2) Cell.nan)
      ((cols2.map (fun c => r4.getD (df4.colIdx c) Cell.nan)).getD
        (List.findIdx (fun c => c == ("time".data)) cols2) Cell.nan)
      = .ok ((cols2.map (fun c => r4.getD (df4.colIdx c) Cell.nan)).getD 2 Cell.nan) := by
  rw [mapped_row_at_name _ _ _ hdm2, mapped_row_at_name _ _ _ htm2,
      mapped_row_at_two _ _ _ h2]
  exact hr

theorem df_reorder_sort_rows_combine (df4 : DF) (hnd : df4.cols.Nodup)
    (hm : ("datetime".data) ∈ df4.cols) (hlen : 3 ≤ df4.cols.length)
    (hdm : ("date".data) ∈ df4.cols) (htm : ("time".data) ∈ df4.cols)
    (hrows : ∀ r4 ∈ df4.rows,
      combineCell (r4.getD (df4.colIdx ("date".data)) Cell.nan)
                  (r4.getD (df4.colIdx ("time".data)) Cell.nan)
        = .ok (r4.getD (df4.colIdx ("datetime".data)) Cell.nan)) :
    ∀ row ∈ (df_reorder_sort df4).rows,
      combineCell (row.getD ((df_reorder_sort df4).colIdx ("date".data)) Cell.nan)
                  (row.getD ((df_reorder_sort df4).colIdx ("time".data)) Cell.nan)
        = .ok (row.getD 2 Cell.nan) := by
  obtain ⟨hA, hB, hC⟩ := reorder_cols_spec ("datetime".data) df4.cols hnd hm hlen
  intro row hrow
  have hrow1 : row ∈ ((df4.selectCols (pyInsert (pyPop df4.cols
      (List.findIdx (fun c => c == ("datetime".data)) df4.cols)) 2
      ("datetime".data))).sortValuesDesc ("datetime".data)).rows := hrow
  have hrow2 := sortValuesDesc_rows_subset _ _ row hrow1
  rw [DF.selectCols_rows, List.mem_map] at hrow2
  obtain ⟨r4, hr4, hre⟩ := hrow2
  subst hre
  exact selected_row_combine df4 r4 _ hA
    (mem_reordered_cols _ _ _ hm hdm (by decide))
    (mem_reordered_cols _ _ _ hm htm (by decide))
    (hrows r4 hr4)

/-- Claim C7 (confirmed).  Whenever `standard_df_clean` succeeds on a
well-formed table (rows as long as the label list, duplicate-free
cleaned labels — both guaranteed by a pandas dataframe with unambiguous
column access), the output has exactly one `datetime` column, that
column sits at index 2, every row's index-2 value is exactly
`Timestamp.combine` of that row's `date` and `time` cells, consecutive
rows are non-increasing in their `datetime` value, and the row index is
reset to 0, 1, 2, ... -/
theorem claim7_normalizer_output (df out : DF)
    (hnodup : (df.cols.map cleanName).Nodup)
    (halign : ∀ r ∈ df.rows, r.length = df.cols.length)
    (h : standard_df_clean df = .ok out) :
    out.cols[2]? = some ("datetime".data)
    ∧ out.cols.count ("datetime".data) = 1
    ∧ List.Pairwise (fun r1 r2 : List Cell =>
        cellLe (r2.getD 2 Cell.nan) (r1.getD 2 Cell.nan) = true) out.rows
    ∧ out.idx = List.range out.rows.length
    ∧ ∀ row ∈ out.rows,
        combineCell (row.getD (out.colIdx ("date".data)) Cell.nan)
                    (row.getD (out.colIdx ("time".data)) Cell.nan)
          = .ok (row.getD 2 Cell.nan) := by
  unfold standard_df_clean at h
  cases ha : df_after_datetime df with
  | error e => rw [ha] at h; cases h
  | ok df4 =>
      rw [ha] at h
      rw [Except.ok.injEq] at h
      subst h
      obtain ⟨hnd, hm, hlen⟩ := df_after_datetime_spec df df4 hnodup ha
      obtain ⟨hdm, htm, hrows⟩ := df_after_datetime_rows df df4 halign ha
      obtain ⟨h1, h2, h3, h4⟩ := df_reorder_sort_spec df4 hnd hm hlen
      exact ⟨h1, h2, h3, h4,
        df_reorder_sort_rows_combine df4 hnd hm hlen hdm htm hrows⟩

def claim7DF : DF :=
  { cols := ["Date".data, "Time".data, "CH4".data],
    rows := [[.str ("2023-01-01".data), .str ("13:45:00.000".data), .str ("a".data)],
             [.str ("2023-01-02".data), .str ("09:00:00.000".data), .str ("b".data)]],
    idx := [0, 1] }

def claim7Out : DF :=
  { cols := ["date".data, "time".data, "datetime".data, "ch4".data],
    rows := [[.ts ⟨2023, 1, 2⟩ 0 0 0 0, .time 9 0 0 0, .ts ⟨2023, 1, 2⟩ 9 0 0 0,
              .str ("b".data)],
             [.ts ⟨2023, 1, 1⟩ 0 0 0 0, .time 13 45 0 0, .ts ⟨2023, 1, 1⟩ 13 45 0 0,
              .str ("a".data)]],
    idx := [0, 1] }

/-- Claim C7, witness: a two-row table with columns `Date`, `Time`,
`CH4`. -/
theorem claim7_normalizer_output_witness :
    claim7Out.cols[2]? = some ("datetime".data)
    ∧ claim7Out.cols.count ("datetime".data) = 1
    ∧ List.Pairwise (fun r1 r2 : List Cell =>
        cellLe (r2.getD 2 Cell.nan) (r1.getD 2 Cell.nan) = true) claim7Out.rows
    ∧ claim7Out.idx = List.range claim7Out.rows.length
    ∧ ∀ row ∈ claim7Out.rows,
        combineCell (row.getD (claim7Out.colIdx ("date".data)) Cell.nan)
                    (row.getD (claim7Out.colIdx ("time".data)) Cell.nan)
          = .ok (row.getD 2 Cell.nan) :=
  claim7_normalizer_output claim7DF claim7Out (by decide) (by decide) (by rfl)
